import Mathlib

/-!
Verification development for the samshee sectioned-sheet library.

The Python modules `samshee/sectionedsheet.py` and `samshee/validation.py` are
shallowly embedded below.  Conventions of the embedding:

* Python exceptions are modelled with `Except String`; the error payload keeps
  the message of the source where a claim depends on it and an abridged tag
  (such as "KeyError" or "IndexError") where only the fact of failure matters.
* Python `int` is modelled as `Int`, Python `float` as an exact rational `Rat`.
  The binary64 rounding of float literals and the IEEE specials (inf, nan) are
  not modelled; no claim below depends on them, only on values being carried
  through unchanged, which holds for binary64 repr round-trips and for the
  rational model alike.
* Python dicts are modelled as association lists in insertion order, with
  last-write-wins updates (`odInsert`), matching dict and OrderedDict.
* `csv.reader` (delimiter ",", quotechar the double quote, QUOTE_MINIMAL) is
  modelled by an explicit character-level state machine with the semantics of
  the CPython reader, including quoted fields spanning lines and the
  double-quote escape.  Only ASCII text is modelled (`\w`, `\s`, `str.lower`,
  `int()` digits are ASCII in all inputs of interest).
-/

set_option maxRecDepth 10000

namespace Samshee

/-! ## The value model (`ValueType` of sectionedsheet.py) -/

/-- A runtime value as it occurs in parsed sheets.  `vstr`, `vint`, `vfloat`
and `vbool` are the declared `ValueType` scalars; `vnull` models Python `None`
(produced by `csv.DictReader` for a row shorter than its header) and `vlist`
models the `list[str]` that `csv.DictReader` stores under its rest key for a
row longer than its header. -/
inductive Value where
  | vstr (s : String)
  | vint (n : Int)
  | vfloat (q : Rat)
  | vbool (b : Bool)
  | vnull
  | vlist (xs : List String)
deriving DecidableEq, Repr

/-- A record of a Data section: an ordered mapping as built by
`csv.DictReader`.  The key `none` models the reader rest key (Python `None`),
all ordinary column names are `some`. -/
abbrev Rec := List (Option String × Value)

/-- One section of a sheet: `Settings`, `Data` or `Array` of
sectionedsheet.py. -/
inductive SheetSection where
  | settings (kvs : List (String × Value))
  | data (rows : List Rec)
  | array (elems : List Value)
deriving DecidableEq, Repr

/-- `SectionedSheet`: ordered mapping from section name to section. -/
abbrev SectionedSheet := List (String × SheetSection)

def SheetSection.isSettings : SheetSection → Bool
  | .settings _ => true
  | _ => false

def SheetSection.isData : SheetSection → Bool
  | .data _ => true
  | _ => false

/-! ## Ordered-dict helpers -/

/-- Insertion into an ordered dict: an existing key keeps its position and
receives the new value, a new key is appended.  Keys are compared with `BEq`
(String or `Option String` below). -/
def odInsert [BEq κ] (m : List (κ × α)) (k : κ) (v : α) : List (κ × α) :=
  if m.any (fun p => p.1 == k) then
    m.map (fun p => if p.1 == k then (k, v) else p)
  else
    m ++ [(k, v)]

/-- Builds an ordered dict from a pair list, as `dict(pairs)` /
`OrderedDict(pairs)` do: first occurrence fixes the position, the last value
wins. -/
def odOfPairs [BEq κ] (l : List (κ × α)) : List (κ × α) :=
  l.foldl (fun acc p => odInsert acc p.1 p.2) []

def odLookup [BEq κ] (m : List (κ × α)) (k : κ) : Option α :=
  (m.find? (fun p => p.1 == k)).map (·.2)

def odHasKey [BEq κ] (m : List (κ × α)) (k : κ) : Bool :=
  m.any (fun p => p.1 == k)

/-! ## Python string/number casts -/

/-- ASCII whitespace stripped by `str.strip()` and by `int()` / `float()`. -/
def pyWs : List Char := [' ', '\t', '\n', '\r', '\x0b', '\x0c']

def lstripChars (s : String) (cs : List Char) : String :=
  String.mk (s.data.dropWhile (· ∈ cs))

def rstripChars (s : String) (cs : List Char) : String :=
  String.mk ((s.data.reverse.dropWhile (· ∈ cs)).reverse)

def stripWs (l : List Char) : List Char :=
  ((l.dropWhile (· ∈ pyWs)).reverse.dropWhile (· ∈ pyWs)).reverse

/-- Helper of `digitRun`: consumes the remaining digits and underscores. -/
def digitRunGo (acc : List Char) : List Char → Option (List Char)
  | [] => some acc
  | '_' :: c :: cs => if c.isDigit then digitRunGo (acc ++ [c]) cs else none
  | ['_'] => none
  | c :: cs => if c.isDigit then digitRunGo (acc ++ [c]) cs else none

/-- One maximal run of decimal digits with the underscore rule of Python
numeric literals: an underscore must sit between two digits.  Returns the
digits with underscores removed, or `none` when the run is malformed or
empty. -/
def digitRun : List Char → Option (List Char)
  | [] => none
  | c :: cs =>
    if c.isDigit then
      digitRunGo [c] cs
    else none

def digitsToNat (l : List Char) : Nat :=
  l.foldl (fun n c => 10 * n + (c.toNat - 48)) 0

/-- Python `int(s)` on a string, base 10 (ASCII model): optional surrounding
whitespace, optional sign, digits with underscores. -/
def pyIntOfString (s : String) : Option Int :=
  let l := stripWs s.data
  match l with
  | '+' :: rest => (digitRun rest).map (fun d => (digitsToNat d : Int))
  | '-' :: rest => (digitRun rest).map (fun d => -(digitsToNat d : Int))
  | rest => (digitRun rest).map (fun d => (digitsToNat d : Int))

/-- Mantissa of a float literal: `digits [. [digits]]` or `. digits`.
Returns the pair of the integral value of all digits and the count of
fractional digits, so that the mantissa value is `fst / 10 ^ snd`.  Plain
natural-number arithmetic is used so that everything reduces in the kernel. -/
def pyFloatMantissa (l : List Char) : Option (Nat × Nat) :=
  let ip := l.takeWhile (· ≠ '.')
  let rest := l.dropWhile (· ≠ '.')
  match rest with
  | [] => (digitRun ip).map (fun d => (digitsToNat d, 0))
  | '.' :: fp =>
    if fp.any (· = '.') then none
    else match ip, fp with
      | [], [] => none
      | [], _ => (digitRun fp).map (fun d => (digitsToNat d, d.length))
      | _, [] => (digitRun ip).map (fun d => (digitsToNat d, 0))
      | _, _ => do
        let di ← digitRun ip
        let df ← digitRun fp
        pure (digitsToNat di * 10 ^ df.length + digitsToNat df, df.length)
  | _ => none

/-- Python `float(s)` on a string (ASCII model, finite decimal forms with an
optional exponent; the IEEE specials inf and nan are outside the rational
model and are not recognised, no input of interest contains them).  The value
is returned as the exact rational of the decimal literal. -/
def pyFloatOfString (s : String) : Option Rat := do
  let l := stripWs s.data
  let (neg, l) : Bool × List Char :=
    match l with
    | '+' :: rest => (false, rest)
    | '-' :: rest => (true, rest)
    | rest => (false, rest)
  let mant := l.takeWhile (fun c => c ≠ 'e' ∧ c ≠ 'E')
  let expPart := l.dropWhile (fun c => c ≠ 'e' ∧ c ≠ 'E')
  let m ← pyFloatMantissa mant
  let e : Int ←
    match expPart with
    | [] => pure (0 : Int)
    | _ :: rest =>
      let (eneg, rest) : Bool × List Char :=
        match rest with
        | '+' :: r => (false, r)
        | '-' :: r => (true, r)
        | r => (false, r)
      (digitRun rest).map (fun d =>
        if eneg then -(digitsToNat d : Int) else (digitsToNat d : Int))
  let shift : Int := e - (m.2 : Int)
  let num : Int := if neg then -(m.1 : Int) else (m.1 : Int)
  if shift ≥ 0 then
    pure (mkRat (num * ((10 ^ shift.toNat : Nat) : Int)) 1)
  else
    pure (mkRat num (10 ^ (-shift).toNat))

/-- `attempt_cast` of sectionedsheet.py: try `int`, then `float`, else keep
the string. -/
def attempt_cast (value : String) : Value :=
  match pyIntOfString value with
  | some n => .vint n
  | none =>
    match pyFloatOfString value with
    | some q => .vfloat q
    | none => .vstr value

/-- `parse_value` of sectionedsheet.py. -/
def parse_value (contents : String) : Value := attempt_cast contents

/-- Decidable equality for `Except`, used to settle concrete evaluations. -/
instance exceptDecEq {ε α : Type} [DecidableEq ε] [DecidableEq α] :
    DecidableEq (Except ε α) := fun a b =>
  match a, b with
  | .ok x, .ok y =>
    match decEq x y with
    | isTrue h => isTrue (by rw [h])
    | isFalse h => isFalse (by intro hc; cases hc; exact h rfl)
  | .error x, .error y =>
    match decEq x y with
    | isTrue h => isTrue (by rw [h])
    | isFalse h => isFalse (by intro hc; cases hc; exact h rfl)
  | .ok _, .error _ => isFalse (by intro hc; cases hc)
  | .error _, .ok _ => isFalse (by intro hc; cases hc)

/-! Monadic list combinators over `Except`, written as plain structural
recursions so that proofs can unfold them step by step: they model Python
list comprehensions and for loops with their left-to-right evaluation
order. -/

def mapMEx (f : α → Except String β) : List α → Except String (List β)
  | [] => .ok []
  | x :: xs => do
    let y ← f x
    let ys ← mapMEx f xs
    pure (y :: ys)

def forMEx (f : α → Except String Unit) : List α → Except String Unit
  | [] => .ok ()
  | x :: xs => do
    f x
    forMEx f xs

def filterMEx (p : α → Except String Bool) : List α → Except String (List α)
  | [] => .ok []
  | x :: xs => do
    let b ← p x
    let ys ← filterMEx p xs
    pure (if b then x :: ys else ys)

def foldlMEx (f : β → α → Except String β) (init : β) : List α → Except String β
  | [] => .ok init
  | x :: xs => do
    let y ← f init x
    foldlMEx f y xs

example : parse_value "28" = .vint 28 := by decide
example : parse_value "1_0" = .vint 10 := by decide
example : parse_value "-2.5" = .vfloat (mkRat (-5) 2) := by decide
example : parse_value "p123_A" = .vstr "p123_A" := by decide
example : parse_value "" = .vstr "" := by decide

/-! ## The csv reader state machine

Models `csv.reader(StringIO(s), delimiter=",", quotechar=chr(34),
quoting=csv.QUOTE_MINIMAL)` of CPython: records are lists of string fields; a
blank line yields the empty record; a quote opens a quoted field only at field
start; two quotes inside a quoted field are an escaped quote; characters after
the closing quote are appended verbatim; a newline inside a quoted field
belongs to the field; an unterminated quoted field at end of input is an
error; a carriage return outside quotes must be followed by a newline. -/

inductive CsvSt where
  | atRecord
  | atField
  | inField
  | quoted
  | quoteQuoted
deriving DecidableEq, Repr

def csvRun (st : CsvSt) (fld : String) (flds : List String)
    (recs : List (List String)) : List Char → Except String (List (List String))
  | [] =>
    match st with
    | .atRecord => .ok recs
    | .atField => .ok (recs ++ [flds ++ [fld]])
    | .inField => .ok (recs ++ [flds ++ [fld]])
    | .quoted => .error "unexpected end of data"
    | .quoteQuoted => .ok (recs ++ [flds ++ [fld]])
  | c :: cs =>
    match st with
    | .atRecord =>
      if c = '\n' then csvRun .atRecord "" [] (recs ++ [[]]) cs
      else if c = '\r' then
        match cs with
        | '\n' :: cs2 => csvRun .atRecord "" [] (recs ++ [[]]) cs2
        | _ => .error "new-line character seen in unquoted field"
      else if c = '"' then csvRun .quoted "" [] recs cs
      else if c = ',' then csvRun .atField "" [""] recs cs
      else csvRun .inField (String.mk [c]) [] recs cs
    | .atField =>
      if c = '\n' then csvRun .atRecord "" [] (recs ++ [flds ++ [""]]) cs
      else if c = '\r' then
        match cs with
        | '\n' :: cs2 => csvRun .atRecord "" [] (recs ++ [flds ++ [""]]) cs2
        | _ => .error "new-line character seen in unquoted field"
      else if c = '"' then csvRun .quoted "" flds recs cs
      else if c = ',' then csvRun .atField "" (flds ++ [""]) recs cs
      else csvRun .inField (String.mk [c]) flds recs cs
    | .inField =>
      if c = '\n' then csvRun .atRecord "" [] (recs ++ [flds ++ [fld]]) cs
      else if c = '\r' then
        match cs with
        | '\n' :: cs2 => csvRun .atRecord "" [] (recs ++ [flds ++ [fld]]) cs2
        | _ => .error "new-line character seen in unquoted field"
      else if c = ',' then csvRun .atField "" (flds ++ [fld]) recs cs
      else csvRun .inField (fld.push c) flds recs cs
    | .quoted =>
      if c = '"' then csvRun .quoteQuoted fld flds recs cs
      else csvRun .quoted (fld.push c) flds recs cs
    | .quoteQuoted =>
      if c = '"' then csvRun .quoted (fld.push '"') flds recs cs
      else if c = ',' then csvRun .atField "" (flds ++ [fld]) recs cs
      else if c = '\n' then csvRun .atRecord "" [] (recs ++ [flds ++ [fld]]) cs
      else if c = '\r' then
        match cs with
        | '\n' :: cs2 => csvRun .atRecord "" [] (recs ++ [flds ++ [fld]]) cs2
        | _ => .error "new-line character seen in unquoted field"
      else csvRun .inField (fld.push c) flds recs cs

/-- All csv records of a string. -/
def csvRecords (s : String) : Except String (List (List String)) :=
  csvRun .atRecord "" [] [] s.data

example : csvRecords "a,1\nb,2" = .ok [["a", "1"], ["b", "2"]] := by decide
example : csvRecords "a,1\n\nb,2\n" = .ok [["a", "1"], [], ["b", "2"]] := by decide
example : csvRecords "\"x,y\",\"a\"\"b\"\n" = .ok [["x,y", "a\"b"]] := by decide
example : csvRecords "\"two\nlines\",1\n" = .ok [["two\nlines", "1"]] := by decide
example : csvRecords "\"open" = .error "unexpected end of data" := by decide
example : csvRecords "a,1," = .ok [["a", "1", ""]] := by decide

/-! ## Settings parsing (`parse_settings`) -/

/-- One record of the `parse_settings` comprehension: `row[0]` raises
IndexError on an empty record; a record with an empty first field is
skipped; otherwise `row[1]` (IndexError when absent) becomes the value and
any further fields are not consulted. -/
def settingsStep (acc : List (String × Value)) (row : List String) :
    Except String (List (String × Value)) :=
  match row with
  | [] => .error "IndexError"
  | k :: rest =>
    if k = "" then .ok acc
    else
      match rest with
      | [] => .error "IndexError"
      | v :: _ => .ok (odInsert acc k (parse_value v))

/-- The row-level part of `parse_settings`: the peeked first record must have
exactly two non-empty fields; then every record is folded through
`settingsStep` (the tee-ed reader starts again from the first record, so the
first record is also a data record). -/
def settingsFromRows (rows : List (List String)) : Except String (List (String × Value)) :=
  match rows with
  | [] => .error "StopIteration"
  | first :: _ =>
    if (first.filter (· ≠ "")).length ≠ 2 then
      .error "string cannot be parsed into Settings, because it is not a two-columns section."
    else
      foldlMEx settingsStep [] rows

/-- `parse_settings` of sectionedsheet.py. -/
def parse_settings (contents : String) : Except String (List (String × Value)) :=
  if lstripChars contents ['\n', '\r', ' '] = "" then .ok []
  else do
    let rows ← csvRecords (lstripChars contents ['\n', '\r', ' '])
    settingsFromRows rows

example : parse_settings "" = .ok [] := by decide
example : parse_settings "Read1Cycles,28\nRead2Cycles,90" =
    .ok [("Read1Cycles", .vint 28), ("Read2Cycles", .vint 90)] := by decide
example : parse_settings "a,b,c\n" =
    .error "string cannot be parsed into Settings, because it is not a two-columns section." := by
  decide

/-! ## Data parsing (`parse_data`) -/

/-- A raw cell as stored by `csv.DictReader` before `attempt_cast`: a string
field, `None` for a missing trailing field, or the rest-key list of extra
fields. -/
inductive RawVal where
  | rstr (s : String)
  | rnull
  | rlist (xs : List String)
deriving DecidableEq, Repr

/-- One `csv.DictReader` row: `dict(zip(fieldnames, row))`, then the extra
fields under the rest key `None` when the row is longer than the header, or
`None` values for the missing fields when it is shorter. -/
def mkDictRow (header row : List String) : List (Option String × RawVal) :=
  let base := odOfPairs ((header.zip row).map
    (fun p => ((some p.1 : Option String), RawVal.rstr p.2)))
  if header.length < row.length then
    odInsert base none (RawVal.rlist (row.drop header.length))
  else if header.length > row.length then
    (header.drop row.length).foldl (fun acc k => odInsert acc (some k) RawVal.rnull) base
  else base

/-- The emptiness test of `parse_data`: `row[i] is None or len(row[i]) == 0`. -/
def rawEmpty : RawVal → Bool
  | .rstr s => s.length = 0
  | .rnull => true
  | .rlist xs => xs.length = 0

/-- `attempt_cast` applied to a raw cell: `int()` and `float()` raise
TypeError on `None` and on a list, so both are returned unchanged. -/
def castRaw : RawVal → Value
  | .rstr s => attempt_cast s
  | .rnull => .vnull
  | .rlist xs => .vlist xs

/-- `parse_data` of sectionedsheet.py. -/
def parse_data (contents : String) : Except String (List Rec) := do
  let rows ← csvRecords (lstripChars contents ['\n', '\r', ' '])
  match rows with
  | [] => .error "no content in Data Section"
  | header :: body =>
    let dicts := (body.filter (· ≠ [])).map (mkDictRow header)
    let d := dicts.filter (fun r => ¬ r.all (fun p => rawEmpty p.2))
    match d with
    | [] => .error "no content in Data Section"
    | r0 :: _ =>
      if r0.any (fun p => p.1 = none) then
        -- iterating d[0].keys() feeds the rest key None to re.match, TypeError
        .error "TypeError: expected string or bytes-like object"
      else
        let emptyFields := r0.filterMap (fun p =>
          match p.1 with
          | some k => if k.data.all (· ∈ pyWs) then some k else none
          | none => none)
        let stripped := d.map (fun r => r.filter (fun p =>
          match p.1 with
          | some k => ¬ k ∈ emptyFields
          | none => true))
        .ok (stripped.map (fun r => r.map (fun p => (p.1, castRaw p.2))))

example : parse_data "Sample_ID,Index\na,ACAA\nb,ACTT\n" =
    .ok [[(some "Sample_ID", .vstr "a"), (some "Index", .vstr "ACAA")],
         [(some "Sample_ID", .vstr "b"), (some "Index", .vstr "ACTT")]] := by decide
example : parse_data "a,b\n" = .error "no content in Data Section" := by decide
-- a data row longer than the header is stored under the rest key None
example : parse_data "a,b\n1,2\n3,4,5\n" =
    .ok [[(some "a", .vint 1), (some "b", .vint 2)],
         [(some "a", .vint 3), (some "b", .vint 4), (none, .vlist ["5"])]] := by decide
-- a data row shorter than the header is padded with None values
example : parse_data "a,b\n1\n" =
    .ok [[(some "a", .vint 1), (some "b", .vnull)]] := by decide

/-! ## Array parsing (`parse_array`) -/

/-- `isinstance(o, type(first))` on scalar values: the only subclass nuance is
that Python `bool` is a subclass of `int`. -/
def pyInstanceSameType (o first : Value) : Bool :=
  match first, o with
  | .vint _, .vint _ => true
  | .vint _, .vbool _ => true
  | .vfloat _, .vfloat _ => true
  | .vstr _, .vstr _ => true
  | .vbool _, .vbool _ => true
  | .vnull, .vnull => true
  | .vlist _, .vlist _ => true
  | _, _ => false

/-- The constructor check of `Array.__init__`: a non-empty array must be
uniformly typed. -/
def array_init (vals : List Value) : Except String (List Value) :=
  match vals with
  | [] => .ok []
  | v :: rest =>
    if rest.all (fun o => pyInstanceSameType o v) then .ok vals
    else .error "Array: Array is not uniformly typed (mixed data types)"

/-- The filter `re.match(r..., row[0])` of `parse_array` against the anchored
bracket pattern: the string is an opening bracket, any non-newline characters
and a closing bracket; the anchor at the end also accepts a single trailing
newline. -/
def isHeaderLike (s : String) : Bool :=
  let l := match s.data.reverse with
    | '\n' :: rest => rest.reverse
    | _ => s.data
  match l with
  | '[' :: rest =>
    match rest.reverse with
    | ']' :: mid => mid.all (· ≠ '\n')
    | _ => false
  | _ => false

/-- `parse_array` of sectionedsheet.py. -/
def parse_array (contents : String) : Except String (List Value) := do
  let rows ← csvRecords (lstripChars contents ['\n', '\r', ' '])
  match rows with
  | [] => .error "StopIteration"
  | first :: _ =>
    if (first.filter (· ≠ "")).length ≠ 1 then
      .error "string cannot be parsed into Array, because it is not a single column section."
    else
      array_init (rows.filterMap (fun row =>
        match row with
        | [] => none
        | x :: _ => if x ≠ "" ∧ ¬ isHeaderLike x then some (parse_value x) else none))

example : parse_array "28,\n90,\n10,,\n10" =
    .ok [.vint 28, .vint 90, .vint 10, .vint 10] := by decide
example : parse_array "a,b\n" =
    .error "string cannot be parsed into Array, because it is not a single column section." := by
  decide

/-! ## Section-type inference (`parse_anything`) -/

/-- `str.lower()` (ASCII model), written on the character list so that it
evaluates inside the kernel. -/
def pyLower (s : String) : String := String.mk (s.data.map Char.toLower)

/-- `str.endswith(t)`, written on the character lists. -/
def strEndsWith (s t : String) : Bool :=
  s.data.drop (s.data.length - t.data.length) == t.data && t.data.length ≤ s.data.length

def settingsSuffixed (name : String) : Bool := strEndsWith (pyLower name) "settings"

def dataSuffixed (name : String) : Bool := strEndsWith (pyLower name) "data"

example : settingsSuffixed "Foo_Settings" = true := by decide
example : settingsSuffixed "Header" = false := by decide
example : dataSuffixed "BCLConvert_Data" = true := by decide

/-- `parse_anything` of sectionedsheet.py: a name ending in "settings" (case
insensitively) is parsed as Settings, else a name ending in "data" as Data,
else Settings, Data and Array are tried in this order and the first success
wins. -/
def parse_anything (sectionname : String) (contents : String) : Except String SheetSection :=
  if settingsSuffixed sectionname then
    (parse_settings contents).map .settings
  else if dataSuffixed sectionname then
    (parse_data contents).map .data
  else
    match parse_settings contents with
    | .ok s => .ok (.settings s)
    | .error _ =>
      match parse_data contents with
      | .ok d => .ok (.data d)
      | .error _ =>
        match parse_array contents with
        | .ok a => .ok (.array a)
        | .error _ => .error "Cannot guess section type"

/-! ## Section splitting (`parse_sectionedsheet`) -/

/-- An ASCII word character of the regex class backslash-w. -/
def wordChar (c : Char) : Bool := c.isAlphanum || c = '_'

theorem dropWhile_length_le (p : α → Bool) (l : List α) :
    (l.dropWhile p).length ≤ l.length := by
  induction l with
  | nil => simp [List.dropWhile]
  | cons a l ih =>
    simp only [List.dropWhile]
    split
    · exact Nat.le_succ_of_le ih
    · exact Nat.le_refl _

/-- Model of `re.findall` for the section pattern of `parse_sectionedsheet`,
with explicit fuel so that the definition is structurally recursive and
evaluates inside the kernel: an opening bracket, a word-character name, a
closing bracket, the rest of that line, a newline, then a body running up to
(not including) the next opening bracket anywhere in the text.  Scanning
resumes after each match, and after the position of a failed match attempt.
Every recursive call strictly shrinks the character list, so any fuel above
the length of the input makes the fuel guard unreachable. -/
def sectionScanGo : Nat → List Char → List (String × String)
  | 0, _ => []
  | _ + 1, [] => []
  | fuel + 1, c :: cs =>
    if c = '[' then
      if (cs.dropWhile wordChar).head? = some ']' then
        if ((cs.dropWhile wordChar).tail.dropWhile (· ≠ '\n')).head? = some '\n' then
          (String.mk (cs.takeWhile wordChar),
           String.mk (((cs.dropWhile wordChar).tail.dropWhile (· ≠ '\n')).tail.takeWhile (· ≠ '['))) ::
            sectionScanGo fuel
              (((cs.dropWhile wordChar).tail.dropWhile (· ≠ '\n')).tail.dropWhile (· ≠ '['))
        else sectionScanGo fuel cs
      else sectionScanGo fuel cs
    else sectionScanGo fuel cs

/-- All sections found in a character list. -/
def sectionScan (l : List Char) : List (String × String) :=
  sectionScanGo (l.length + 1) l

/-- Any fuel above the length of the input gives the same scan result. -/
theorem sectionScanGo_fuel (f1 f2 : Nat) (l : List Char)
    (h1 : l.length < f1) (h2 : l.length < f2) :
    sectionScanGo f1 l = sectionScanGo f2 l := by
  induction f1 generalizing l f2 with
  | zero => omega
  | succ f1 ih =>
    cases f2 with
    | zero => omega
    | succ f2 =>
      cases l with
      | nil => rfl
      | cons c cs =>
        simp only [sectionScanGo]
        have hcsl : cs.length < f1 ∧ cs.length < f2 := by
          simp only [List.length_cons] at h1 h2
          omega
        have htail : ((cs.dropWhile wordChar).tail.dropWhile (· ≠ '\n')).tail.length + 1 ≤
            cs.length + 1 := by
          have t1 := dropWhile_length_le wordChar cs
          have t2 := dropWhile_length_le (fun c => decide (c ≠ '\n')) (cs.dropWhile wordChar).tail
          have t3 := List.length_tail (cs.dropWhile wordChar)
          have t4 := List.length_tail ((cs.dropWhile wordChar).tail.dropWhile (· ≠ '\n'))
          omega
        by_cases hc : c = '['
        · simp only [if_pos hc]
          by_cases hb : (cs.dropWhile wordChar).head? = some ']'
          · simp only [if_pos hb]
            by_cases hd : ((cs.dropWhile wordChar).tail.dropWhile (· ≠ '\n')).head? = some '\n'
            · simp only [if_pos hd]
              have hne : (cs.dropWhile wordChar).tail.dropWhile (· ≠ '\n') ≠ [] := by
                intro h
                rw [h] at hd
                simp at hd
              have hr4 := dropWhile_length_le (fun c => decide (c ≠ '['))
                ((cs.dropWhile wordChar).tail.dropWhile (· ≠ '\n')).tail
              rw [ih f2 _ (by omega) (by omega)]
            · simp only [if_neg hd]
              exact ih f2 cs hcsl.1 hcsl.2
          · simp only [if_neg hb]
            exact ih f2 cs hcsl.1 hcsl.2
        · simp only [if_neg hc]
          exact ih f2 cs hcsl.1 hcsl.2

/-- `parse_sectionedsheet` of sectionedsheet.py: find all section markers and
bodies, strip trailing newlines and spaces from each body, infer and parse
each section and collect the results into an ordered dict, wrapping any
section error. -/
def parse_sectionedsheet (contents : String) : Except String SectionedSheet :=
  foldlMEx (fun res nc =>
    match parse_anything nc.1 (rstripChars nc.2 ['\n', ' ']) with
    | .ok sec => .ok (odInsert res nc.1 sec)
    | .error e => .error ("Error parsing section " ++ nc.1 ++ ": " ++ e)) []
    (sectionScan contents.data)

example : sectionScan "[Header]\na,1\n\n[Reads]\nb,2\n".data =
    [("Header", "a,1\n\n"), ("Reads", "b,2\n")] := by decide
example : parse_sectionedsheet "[Header]\nFileFormatVersion,2\n\n[Reads]\nRead1Cycles,28\n" =
    .ok [("Header", .settings [("FileFormatVersion", .vint 2)]),
         ("Reads", .settings [("Read1Cycles", .vint 28)])] := by decide

/-! ## JSON serialization (`to_json`, `parse_sectionedsheet_from_json`)

A JSON document is modelled as a value tree.  `json.dumps` followed by
`json.loads` is exact on every value that occurs here (strings, ints, finite
floats via repr, booleans, null, arrays, objects in insertion order), so
`to_json` maps a sheet to the tree that `json.loads` sees, and the
`object_pairs_hook=OrderedDict` step is modelled by `loadsJson`. -/

inductive JValue where
  | jstr (s : String)
  | jint (n : Int)
  | jfloat (q : Rat)
  | jbool (b : Bool)
  | jnull
  | jarr (xs : List JValue)
  | jobj (kvs : List (String × JValue))

def JValue.isObj : JValue → Bool
  | .jobj _ => true
  | _ => false

def valueToJson : Value → JValue
  | .vstr s => .jstr s
  | .vint n => .jint n
  | .vfloat q => .jfloat q
  | .vbool b => .jbool b
  | .vnull => .jnull
  | .vlist xs => .jarr (xs.map .jstr)

/-- `json.dumps` coerces a `None` dict key to the string "null". -/
def recKeyToJson : Option String → String
  | some k => k
  | none => "null"

def recToJson (r : Rec) : JValue :=
  .jobj (r.map (fun p => (recKeyToJson p.1, valueToJson p.2)))

def sectionToJson : SheetSection → JValue
  | .settings kvs => .jobj (kvs.map (fun p => (p.1, valueToJson p.2)))
  | .data rows => .jarr (rows.map recToJson)
  | .array xs => .jarr (xs.map valueToJson)

/-- `SectionedSheet.to_json` of sectionedsheet.py, at the level of the JSON
value tree (`pretty` only changes whitespace of the text, not the tree). -/
def to_json (s : SectionedSheet) : JValue :=
  .jobj (s.map (fun p => (p.1, sectionToJson p.2)))

mutual
/-- The `json.loads(..., object_pairs_hook=OrderedDict)` step: the tree is
rebuilt and every object collapses duplicate keys as `OrderedDict(pairs)`
does. -/
def loadsJson : JValue → JValue
  | .jstr s => .jstr s
  | .jint n => .jint n
  | .jfloat q => .jfloat q
  | .jbool b => .jbool b
  | .jnull => .jnull
  | .jarr xs => .jarr (loadsJsonList xs)
  | .jobj kvs => .jobj (odOfPairs (loadsJsonPairs kvs))
def loadsJsonList : List JValue → List JValue
  | [] => []
  | x :: xs => loadsJson x :: loadsJsonList xs
def loadsJsonPairs : List (String × JValue) → List (String × JValue)
  | [] => []
  | (k, v) :: rest => (k, loadsJson v) :: loadsJsonPairs rest
end

/-- The re-parsed form of a section: the `Settings`, `Data` and `Array` class
constructors only wrap the loaded JSON values, they do not convert them. -/
inductive PSection where
  | settings (kvs : List (String × JValue))
  | data (rows : List JValue)
  | array (xs : List JValue)

/-- `Settings(obj)`: the argument must be a dict and no value may be a dict. -/
def settingsOfObject : JValue → Except String PSection
  | .jobj kvs =>
    if kvs.all (fun p => ¬ p.2.isObj) then .ok (.settings kvs)
    else .error "Settings: init argument does contain dicts (only simple values allowed)"
  | _ => .error "Settings: init argument is not a dict"

/-- `Data(obj)`: the argument must be a list; its elements are not checked. -/
def dataOfObject : JValue → Except String PSection
  | .jarr xs => .ok (.data xs)
  | _ => .error "Data: init argument is not a list."

/-- `isinstance(o, type(first))` on loaded JSON values (`bool` is a subclass
of `int`). -/
def jInstanceSameType (o first : JValue) : Bool :=
  match first, o with
  | .jint _, .jint _ => true
  | .jint _, .jbool _ => true
  | .jfloat _, .jfloat _ => true
  | .jstr _, .jstr _ => true
  | .jbool _, .jbool _ => true
  | .jnull, .jnull => true
  | .jarr _, .jarr _ => true
  | .jobj _, .jobj _ => true
  | _, _ => false

/-- `Array(obj)`: a list must be uniformly typed; an empty dict iterates to
the empty array; any other argument fails (`len` or `init[0]` raises). -/
def arrayOfObject : JValue → Except String PSection
  | .jarr [] => .ok (.array [])
  | .jarr (x :: xs) =>
    if xs.all (fun o => jInstanceSameType o x) then .ok (.array (x :: xs))
    else .error "Array: Array is not uniformly typed (mixed data types)"
  | .jobj [] => .ok (.array [])
  | _ => .error "TypeError"

/-- `guess_section_from_object` of sectionedsheet.py. -/
def guess_section_from_object (j : JValue) : Except String PSection :=
  match settingsOfObject j with
  | .ok s => .ok s
  | .error _ =>
    match dataOfObject j with
    | .ok d => .ok d
    | .error _ =>
      match arrayOfObject j with
      | .ok a => .ok a
      | .error _ => .error "Cannot guess section type"

/-- The per-section dispatch of `parse_sectionedsheet_from_json`, on the key
suffix: the Settings and Data constructor failures propagate, any other name
goes through `guess_section_from_object`. -/
def sectionFromJson (p : String × JValue) : Except String (String × PSection) :=
  if settingsSuffixed p.1 then (settingsOfObject p.2).map (fun s => (p.1, s))
  else if dataSuffixed p.1 then (dataOfObject p.2).map (fun s => (p.1, s))
  else (guess_section_from_object p.2).map (fun s => (p.1, s))

/-- `parse_sectionedsheet_from_json` of sectionedsheet.py, taking the JSON
value tree of the input text: load it with the ordered-pairs hook, then wrap
each section by name suffix (settings / data) or by guessing. -/
def parse_sectionedsheet_from_json (j : JValue) :
    Except String (List (String × PSection)) :=
  match loadsJson j with
  | .jobj kvs => mapMEx sectionFromJson kvs
  | _ => .error "AttributeError"

/-! ## Structural equality of a sheet and its re-parsed form

This is the equality the round-trip claim states: same section names in the
same order, and within each section the same keys, records and elements with
the same values, numeric values staying numeric and string values staying
strings.  It coincides with Python equality of the two objects: Python list
equality ignores the `Data` / `Array` subclass tags, and a `None` record key
is different from every string key. -/

def strListMatch : List String → List JValue → Bool
  | [], [] => true
  | s :: ss, .jstr t :: ts => s == t && strListMatch ss ts
  | _, _ => false

def valMatch : Value → JValue → Bool
  | .vstr s, .jstr t => s == t
  | .vint n, .jint m => n == m
  | .vfloat q, .jfloat r => q == r
  | .vbool b, .jbool c => b == c
  | .vnull, .jnull => true
  | .vlist xs, .jarr ys => strListMatch xs ys
  | _, _ => false

def settingsPairsMatch : List (String × Value) → List (String × JValue) → Bool
  | [], [] => true
  | (k, v) :: rest, (pk, pv) :: prest =>
      k == pk && valMatch v pv && settingsPairsMatch rest prest
  | _, _ => false

def recKeyMatch : Option String → String → Bool
  | some k, s => k == s
  | none, _ => false

def recPairsMatch : Rec → List (String × JValue) → Bool
  | [], [] => true
  | (k, v) :: rest, (pk, pv) :: prest =>
      recKeyMatch k pk && valMatch v pv && recPairsMatch rest prest
  | _, _ => false

def recMatch (r : Rec) (j : JValue) : Bool :=
  match j with
  | .jobj kvs => recPairsMatch r kvs
  | _ => false

def rowsMatch : List Rec → List JValue → Bool
  | [], [] => true
  | r :: rs, j :: js => recMatch r j && rowsMatch rs js
  | _, _ => false

def elemsMatch : List Value → List JValue → Bool
  | [], [] => true
  | v :: vs, j :: js => valMatch v j && elemsMatch vs js
  | _, _ => false

def sectionMatch : SheetSection → PSection → Bool
  | .settings kvs, .settings pkvs => settingsPairsMatch kvs pkvs
  | .data rows, .data pjs => rowsMatch rows pjs
  | .data rows, .array pjs => rowsMatch rows pjs
  | .array xs, .data pjs => elemsMatch xs pjs
  | .array xs, .array pjs => elemsMatch xs pjs
  | _, _ => false

def structEq : SectionedSheet → List (String × PSection) → Bool
  | [], [] => true
  | (n, sec) :: rest, (pn, psec) :: prest =>
      n == pn && sectionMatch sec psec && structEq rest prest
  | _, _ => false

example :
    parse_sectionedsheet_from_json
      (to_json [("Reads", .settings [("Read1Cycles", .vint 28)])]) =
    .ok [("Reads", .settings [("Read1Cycles", .jint 28)])] := rfl

example :
    structEq [("Reads", .settings [("Read1Cycles", .vint 28)])]
      [("Reads", .settings [("Read1Cycles", .jint 28)])] = true := by decide

/-! ## Cycle-specification parsing (`parse_overrideCycles` of validation.py) -/

def isNYIU (c : Char) : Bool := c = 'N' || c = 'Y' || c = 'I' || c = 'U'

/-- Model of `re.findall` for the pattern of one or more letters from NYIU, a
possibly empty digit run and an optional semicolon, with explicit fuel (each
match or failed attempt strictly shrinks the input, so any fuel above the
input length is enough). -/
def findallNYIUGo : Nat → List Char → List (List Char × List Char)
  | 0, _ => []
  | _ + 1, [] => []
  | fuel + 1, c :: cs =>
    if isNYIU c then
      let letters := c :: cs.takeWhile isNYIU
      let r1 := cs.dropWhile isNYIU
      let digits := r1.takeWhile Char.isDigit
      let r2 := r1.dropWhile Char.isDigit
      let r3 := if r2.head? = some ';' then r2.tail else r2
      (letters, digits) :: findallNYIUGo fuel r3
    else findallNYIUGo fuel cs

def findallNYIU (l : List Char) : List (List Char × List Char) :=
  findallNYIUGo (l.length + 1) l

/-- The nested `expand` of `parse_overrideCycles`: every match contributes its
letter group repeated `int(digits)` times; an empty digit run raises
ValueError at `int`. -/
def expand (short : String) : Except String String :=
  foldlMEx (fun res p =>
    match p.2 with
    | [] => .error "ValueError: invalid literal for int() with base 10"
    | ds => .ok (res ++ String.join (List.replicate (digitsToNat ds) (String.mk p.1)))) ""
    (findallNYIU short.data)

example : expand "Y53" = .ok (String.join (List.replicate 53 "Y")) := by decide
example : expand "I1N2" = .ok "INN" := by decide
example : expand "YN2" = .ok "YNYN" := by decide
example : expand "Y" = .error "ValueError: invalid literal for int() with base 10" := by decide

/-- The nested `is_read_or_umi`. -/
def is_read_or_umi (s : String) : Bool := s.data.any (· = 'Y') || s.data.any (· = 'U')

/-- Python `str.split(sep)` for a one-character separator. -/
def splitOnChar : List Char → Char → List (List Char)
  | [], _ => [[]]
  | c :: cs, sep =>
    if c = sep then [] :: splitOnChar cs sep
    else
      match splitOnChar cs sep with
      | [] => [[c]]
      | h :: t => (c :: h) :: t

example : (splitOnChar "Y4;I3;;".data ';').map String.mk = ["Y4", "I3", "", ""] := by decide

/-- `parse_overrideCycles` of validation.py.  The result dict is an ordered
association list in insertion order. -/
def parse_overrideCycles (cyclestr : String) : Except String (List (String × String)) := do
  let cycles := (splitOnChar cyclestr.data ';').map String.mk
  match cycles with
  | [] => .error "OverrideCycles cannot be parsed to a cycle sequence."
  | c0 :: restc => do
    let e0 ← expand c0
    let res : List (String × String) := [("Read1Cycles", e0)]
    let res ← (do
      match restc with
      | [] => pure res
      | [c1] => do
        let cyc ← expand c1
        if is_read_or_umi cyc then pure (odInsert res "Read2Cycles" cyc)
        else pure (odInsert res "Index1Cycles" cyc)
      | [c1, c2] => do
        let e1 ← expand c1
        let res := odInsert res "Index1Cycles" e1
        if c2.data.any (· = 'Y') then do
          let e2 ← expand c2
          pure (odInsert res "Read2Cycles" e2)
        else if c2.data.any (· = 'I') || c2.data.any (· = 'N') || c2.data.any (· = 'U') then do
          let e2 ← expand c2
          pure (odInsert res "Index2Cycles" e2)
        else
          .error "cannot determine type of third element in OverrideCycles. Probably an implementation error."
      | [c1, c2, c3] => do
        let e1 ← expand c1
        let res := odInsert res "Index1Cycles" e1
        let e2 ← expand c2
        let res := odInsert res "Index2Cycles" e2
        let e3 ← expand c3
        pure (odInsert res "Read2Cycles" e3)
      | _ => .error "OverrideCycles defines too many elements.")
    if ¬ is_read_or_umi ((odLookup res "Read1Cycles").getD "") then
      .error "Read1Cycles entry in OverrideCycles is not a read"
    else if ((odLookup res "Read2Cycles").map (fun v => ! is_read_or_umi v)).getD false then
      .error "Read2Cycles entry in OverrideCycles is not a read"
    else if ((odLookup res "Index1Cycles").map is_read_or_umi).getD false then
      .error "Index1Cycles entry in OverrideCycles contains reads"
    else if ((odLookup res "Index2Cycles").map is_read_or_umi).getD false then
      .error "Index2Cycles entry in OverrideCycles contains reads"
    else .ok res

-- note: the docstring example of the source, Y53;I8;N8U16;Y53, actually
-- raises in the source code as well, because the final consistency check
-- treats the U cycles of Index2 as reads
example : parse_overrideCycles "Y53;I8;N8U16;Y53" =
    .error "Index2Cycles entry in OverrideCycles contains reads" := by decide

/-! ## Python runtime helpers for validation.py

Record, sheet and settings access with the Python error behaviour (KeyError
on a missing dict key, TypeError on indexing a list with a string), Python
value equality (numeric types compare across int / float / bool), and the
`int()` cast on values. -/

def valAsRat : Value → Option Rat
  | .vint n => some (mkRat n 1)
  | .vfloat q => some q
  | .vbool b => some (mkRat (if b then 1 else 0) 1)
  | _ => none

/-- Python `==` on values: numeric values compare by value across int, float
and bool; everything else compares within its own type. -/
def pyEq (a b : Value) : Bool :=
  match valAsRat a, valAsRat b with
  | some x, some y => x == y
  | _, _ =>
    match a, b with
    | .vstr s, .vstr t => s == t
    | .vnull, .vnull => true
    | .vlist xs, .vlist ys => xs == ys
    | _, _ => false

/-- Python `int(value)`: ints pass, bools become 0 or 1, floats truncate
toward zero, strings parse, None and lists raise TypeError. -/
def pyInt : Value → Except String Int
  | .vint n => .ok n
  | .vbool b => .ok (if b then 1 else 0)
  | .vfloat q => .ok (q.num.tdiv (q.den : Int))
  | .vstr s =>
    match pyIntOfString s with
    | some n => .ok n
    | none => .error "ValueError"
  | .vnull => .error "TypeError"
  | .vlist _ => .error "TypeError"

/-- A value used in a numeric comparison: int, float and bool are numbers,
anything else raises TypeError. -/
def pyNum : Value → Except String Rat
  | .vint n => .ok (mkRat n 1)
  | .vfloat q => .ok q
  | .vbool b => .ok (mkRat (if b then 1 else 0) 1)
  | _ => .error "TypeError"

def ratLe (a b : Rat) : Bool := ! Rat.blt b a

def ratOfNat (n : Nat) : Rat := mkRat n 1

def recHas (r : Rec) (k : String) : Bool := r.any (fun p => p.1 == some k)

def recLookup (r : Rec) (k : String) : Option Value :=
  (r.find? (fun p => p.1 == some k)).map (·.2)

def sheetHas (doc : SectionedSheet) (name : String) : Bool :=
  doc.any (fun p => p.1 == name)

def sheetGet (doc : SectionedSheet) (name : String) : Except String SheetSection :=
  match doc.find? (fun p => p.1 == name) with
  | some p => .ok p.2
  | none => .error "KeyError"

/-- Python `key in section`: key membership for a Settings dict, element
equality for a Data list (a string never equals a row dict) and for an Array
list. -/
def keyIn (key : String) : SheetSection → Bool
  | .settings kvs => kvs.any (fun p => p.1 == key)
  | .data _ => false
  | .array xs => xs.any (fun v => pyEq v (.vstr key))

def settingsLookup : SheetSection → String → Except String Value
  | .settings kvs, k =>
    match odLookup kvs k with
    | some v => .ok v
    | none => .error "KeyError"
  | _, _ => .error "TypeError"

def asDataRows : SheetSection → Except String (List Rec)
  | .data rows => .ok rows
  | _ => .error "TypeError"

/-! ## Index distances (`check_index_distance` of validation.py) -/

/-- The `shorter` local of `pairwise_index_distance`. -/
def pidShorter (A B : List Char) : List Char := if A.length < B.length then A else B

/-- The `longer` local of `pairwise_index_distance`. -/
def pidLonger (A B : List Char) : List Char := if A.length ≥ B.length then A else B

/-- The padding step of `pairwise_index_distance`: the shorter sequence is
extended with the slice `longer[-(len(longer)-len(shorter)):]` so that the
padded positions add no distance. -/
def pidPad (shorter longer : List Char) : List Char :=
  if shorter.length < longer.length then
    shorter ++ longer.drop (longer.length - (longer.length - shorter.length))
  else shorter

/-- The nested `pairwise_index_distance` of `check_index_distance`, with the
strings identified with their character lists: pad the shorter sequence from
the longer one, then count the differing positions. -/
def pairwise_index_distance (a b : String) : Nat :=
  (List.range (pidPad (pidShorter a.data b.data) (pidLonger a.data b.data)).length).countP
    (fun i => (pidPad (pidShorter a.data b.data) (pidLonger a.data b.data)).get? i ≠
      (pidLonger a.data b.data).get? i)

example : pairwise_index_distance "ACAA" "ACTT" = 2 := by decide
example : pairwise_index_distance "ACAAGG" "ACTT" = 2 := by decide
example : pairwise_index_distance "" "ACTT" = 0 := by decide

/-- `itertools.combinations(l, 2)` in its order. -/
def combinations2 : List α → List (α × α)
  | [] => []
  | x :: xs => xs.map (fun y => (x, y)) ++ combinations2 xs

/-- The nested `index_distances`: one single entry is returned with the
lengths of its index strings in place of distances; no entry raises; two or
more entries give the pairwise distances per index field.  The rows of
`indices` share the length of the index-name list by construction, so the
defaulted indexing equals the source indexing. -/
def index_distances (indices : List (List String)) :
    Except String (List (List Nat × List String × List String)) :=
  match indices with
  | [l] => .ok [(l.map String.length, l, l)]
  | [] => .error "no indices."
  | _ =>
    .ok ((combinations2 indices).map (fun c =>
      ((List.range c.1.length).map (fun i =>
        pairwise_index_distance ((c.1.get? i).getD "") ((c.2.get? i).getD "")),
       c.1, c.2)))

example : index_distances [["ACAA"], ["ACTT"]] = .ok [([2], ["ACAA"], ["ACTT"])] := by decide
example : index_distances [["AC"]] = .ok [([2], ["AC"], ["AC"])] := by decide
example : index_distances [] = .error "no indices." := by decide

/-- The extraction `i[indexname] if indexname in i and i[indexname] is not
None else ""`.  A present non-string, non-None value would raise TypeError
later at `len` / indexing in the source; the embedding raises at
extraction. -/
def indexField (r : Rec) (indexname : String) : Except String String :=
  match recLookup r indexname with
  | some (.vstr s) => .ok s
  | some .vnull => .ok ""
  | none => .ok ""
  | some _ => .error "TypeError"

/-- First-occurrence deduplication; models the value set of the lanes.  The
iteration order of a Python set is unspecified; it influences only which lane
raises first, never whether some lane raises. -/
def dedupGo : List Int → List Int → List Int
  | [], _ => []
  | x :: xs, seen => if x ∈ seen then dedupGo xs seen else x :: dedupGo xs (x :: seen)

def dedupKeepOrder (l : List Int) : List Int := dedupGo l []

/-- The nested `check_index` of `check_index_distance`.  The source accepts a
bare string for the name arguments and wraps it into a one-element list; the
callers below pass the lists explicitly. -/
def check_index (doc : SectionedSheet) (indexnames mismatchnames : List String)
    (mindist : Option Int) : Except String Unit := do
  let convSec ← sheetGet doc "BCLConvert_Data"
  let rows ← asDataRows convSec
  let laneList ← mapMEx (fun r =>
    if recHas r "Lane" then
      match recLookup r "Lane" with
      | some v => pyInt v
      | none => Except.error "KeyError"
    else pure (1 : Int)) rows
  let lanes := dedupKeepOrder laneList
  forMEx (fun lane => do
    let laneRows ← filterMEx (fun r =>
      if recHas r "Lane" then do
        let v ← (match recLookup r "Lane" with
          | some v => pyInt v
          | none => Except.error "KeyError")
        pure (v == lane)
      else pure true) rows
    let index ← mapMEx (fun r => mapMEx (indexField r) indexnames) laneRows
    let mismatches ← mapMEx (fun mname => do
      let settingsSec ← sheetGet doc "BCLConvert_Settings"
      if keyIn mname settingsSec then do
        let v ← settingsLookup settingsSec mname
        pyNum v
      else pure (mkRat 1 1)) mismatchnames
    let indexdist ← index_distances index
    let matching := indexdist.filter (fun t =>
      (List.range mismatches.length).all (fun i =>
        ratLe (ratOfNat ((t.1.get? i).getD 0)) ((mismatches.get? i).getD (mkRat 1 1))))
    if matching ≠ [] then
      Except.error "Indices are too close and undistinguishable"
    else
      match mindist with
      | none => pure ()
      | some md => do
        let combined := index.map (fun i => [String.join i])
        let indexdist2 ← index_distances combined
        let matching2 := indexdist2.filter (fun t =>
          decide ((((t.1.get? 0).getD 0 : Nat) : Int) < md))
        if matching2 ≠ [] then
          Except.error "Combined index is too close and undistinguishable"
        else pure ()) lanes

/-- `check_index_distance` of validation.py. -/
def check_index_distance (doc : SectionedSheet) (mindist : Option Int) :
    Except String Unit := do
  (match mindist with
   | some md =>
     if md < 1 then Except.error "minimal index distance must be >= 1."
     else Except.ok ()
   | none => Except.ok ())
  let convSec ← sheetGet doc "BCLConvert_Data"
  let rows ← asDataRows convSec
  match rows with
  | [] => Except.error "IndexError"
  | r0 :: _ =>
    if recHas r0 "Index" && recHas r0 "Index2" then
      check_index doc ["Index", "Index2"]
        ["BarcodeMismatchesIndex1", "BarcodeMismatchesIndex2"] mindist
    else if recHas r0 "Index" then
      check_index doc ["Index"] ["BarcodeMismatchesIndex1"] mindist
    else if recHas r0 "Index2" then
      check_index doc ["Index2"] ["BarcodeMismatchesIndex2"] mindist
    else pure ()

/-! ## Cross-table identity (`basespacelogic` of validation.py) -/

/-- Insertion into a dict keyed by Python values (`pyEq`); the original key
object is kept on update, as in Python. -/
def vdInsert (m : List (Value × Rec)) (k : Value) (v : Rec) : List (Value × Rec) :=
  if m.any (fun p => pyEq p.1 k) then
    m.map (fun p => if pyEq p.1 k then (p.1, v) else p)
  else m ++ [(k, v)]

def vdOfPairs (l : List (Value × Rec)) : List (Value × Rec) :=
  l.foldl (fun acc p => vdInsert acc p.1 p.2) []

def vdLookup (m : List (Value × Rec)) (k : Value) : Option Rec :=
  (m.find? (fun p => pyEq p.1 k)).map (·.2)

/-- The comprehension `[i["Sample_ID"] for i in rows]`: every record must
carry the Sample_ID key (KeyError otherwise). -/
def sampleIds (rows : List Rec) : Except String (List Value) :=
  mapMEx (fun r =>
    match recLookup r "Sample_ID" with
    | some v => pure v
    | none => Except.error "KeyError") rows

/-- `basespacelogic` of validation.py.  `commonkeys` is modelled in the key
order of the Cloud_Data dict; the Python set intersection iterates in an
unspecified order, which influences only which mismatch raises first, never
whether one raises. -/
def basespacelogic (doc : SectionedSheet) : Except String Unit := do
  if ¬ sheetHas doc "Cloud_Data" then Except.error "no Cloud_Data section"
  else if ¬ sheetHas doc "BCLConvert_Data" then Except.error "no BCLConvert_Data section"
  else do
    let cloudSec ← sheetGet doc "Cloud_Data"
    let cloudRows ← asDataRows cloudSec
    let convSec ← sheetGet doc "BCLConvert_Data"
    let convRows ← asDataRows convSec
    let cloudIds ← sampleIds cloudRows
    let convIds ← sampleIds convRows
    forMEx (fun cid =>
      if cloudIds.any (fun x => pyEq x cid) then pure ()
      else Except.error
        "Sample_ID is defined in the BCLConvert_Data section, but not in the Cloud_Data section.")
      convIds
    -- the reverse direction is deliberately not checked in the source
    let cloudDict := vdOfPairs (cloudIds.zip cloudRows)
    let convDict := vdOfPairs (convIds.zip convRows)
    let commonkeys := (cloudDict.map (·.1)).filter (fun k =>
      convDict.any (fun p => pyEq p.1 k))
    forMEx (fun sid => do
      let cs := (vdLookup cloudDict sid).getD []
      let vs := (vdLookup convDict sid).getD []
      forMEx (fun idx =>
        if recHas cs idx && recHas vs idx then
          if ! pyEq ((recLookup cs idx).getD .vnull) ((recLookup vs idx).getD .vnull) then
            Except.error "Index does not match between Cloud_Data and BCLConvert_Data"
          else pure ()
        else pure ()) (["Index", "Index2"] : List String)) commonkeys

/-! ## Illumina v2 logic (`illuminasamplesheetv2logic` of validation.py) -/

/-- Python `str(value)`.  The float and list renderings are approximations
(no claim evaluates them); all values rendered in the claims are strings or
ints, where the model is exact. -/
def pyStr : Value → String
  | .vstr s => s
  | .vint n => toString n
  | .vbool b => if b then "True" else "False"
  | .vnull => "None"
  | .vfloat q => toString q
  | .vlist _ => "[...]"

/-- Python `len(value)`: strings and lists have a length, everything else
raises TypeError. -/
def pyLen : Value → Except String Nat
  | .vstr s => .ok s.length
  | .vlist xs => .ok xs.length
  | _ => .error "TypeError"

/-- Python `"Y" * value`: repetition count must be an int (a negative count
gives the empty string, a bool counts as 0 or 1); other types raise
TypeError. -/
def pyRepeat (s : String) : Value → Except String String
  | .vint n => .ok (String.join (List.replicate n.toNat s))
  | .vbool b => .ok (if b then s else "")
  | _ => .error "TypeError"

/-- Python `+` on values as used for index concatenation: two strings
concatenate, numeric values add (two ints give an int), anything else raises
TypeError. -/
def pyAdd : Value → Value → Except String Value
  | .vstr a, .vstr b => .ok (.vstr (a ++ b))
  | .vint a, .vint b => .ok (.vint (a + b))
  | .vbool a, .vbool b => .ok (.vint ((if a then 1 else 0) + (if b then 1 else 0)))
  | .vbool a, .vint b => .ok (.vint ((if a then 1 else 0) + b))
  | .vint a, .vbool b => .ok (.vint (a + (if b then 1 else 0)))
  | a, b =>
    match valAsRat a, valAsRat b with
    | some x, some y => .ok (.vfloat (x + y))
    | _, _ => .error "TypeError"

def strStartsWith (s t : String) : Bool := s.data.take t.data.length == t.data

/-- First-occurrence deduplication by Python equality; models `set(index)`,
whose size alone is consumed. -/
def dedupValuesGo : List Value → List Value → List Value
  | [], _ => []
  | x :: xs, seen =>
    if seen.any (fun y => pyEq y x) then dedupValuesGo xs seen
    else x :: dedupValuesGo xs (x :: seen)

def dedupValues (l : List Value) : List Value := dedupValuesGo l []

/-- The OverrideCycles part of `illuminasamplesheetv2logic`: parse the cycle
string, require every parsed entry to appear in Reads with the matching
length, and every declared Reads cycle entry to appear among the parsed
entries; without OverrideCycles, synthesize the cycles dict from the Reads
entries (`"Y" * v` for entries starting with "Read", `"I" * v` otherwise). -/
def illuminaCycles (convertsettings readsSec : SheetSection) :
    Except String (List (String × String)) := do
  if keyIn "OverrideCycles" convertsettings then do
    let ov ← settingsLookup convertsettings "OverrideCycles"
    let cycles ← parse_overrideCycles (pyStr ov)
    forMEx (fun p => do
      if ¬ keyIn p.1 readsSec then
        Except.error
          "BCLConvert_Settings.OverrideCycles defines an entry, but it is not specified in the Reads section"
      else do
        let v ← settingsLookup readsSec p.1
        let n ← pyInt v
        if n ≠ (p.2.length : Int) then
          Except.error
            "a Reads entry differs from the length that BCLConvert_Settings.OverrideCycles specifies"
        else pure ()) cycles
    let readKeys ← (match readsSec with
      | .settings kvs => pure (kvs.map (·.1))
      | _ => Except.error "AttributeError")
    (["Read1Cycles", "Read2Cycles", "Index1Cycles", "Index2Cycles"].filter
      (fun i => readKeys.contains i) |> forMEx (fun elemname =>
      if ¬ odHasKey cycles elemname then
        Except.error "Reads defines an entry, but BCLConvert_Settings.OverrideCycles is incompatible with it."
      else pure ()))
    pure cycles
  else do
    let kvs ← (match readsSec with
      | .settings kvs => pure kvs
      | _ => Except.error "AttributeError")
    let pairs ← mapMEx (fun p => do
      let e ← (if strStartsWith p.1 "Read" then pyRepeat "Y" p.2 else pyRepeat "I" p.2)
      pure (p.1, e)) kvs
    pure (odOfPairs pairs)

/-- The adapter checks of `illuminasamplesheetv2logic`. -/
def illuminaAdapters (convertsettings readsSec : SheetSection) : Except String Unit := do
  if keyIn "AdapterRead1" convertsettings then do
    let av ← settingsLookup convertsettings "AdapterRead1"
    let alen ← pyLen av
    let rv ← settingsLookup readsSec "Read1Cycles"
    let rq ← pyNum rv
    if ¬ ratLe (ratOfNat alen) rq then
      Except.error "BCLConvert_Settings.AdapterRead1 is longer then Reads.Read1Cycles"
    else pure ()
  else pure ()
  if keyIn "AdapterRead2" convertsettings then do
    if ¬ keyIn "Read2Cycles" readsSec then
      Except.error "AdapterRead2 defined in BCLConvert_Settings, but no Read2Cycles entry in Reads"
    else do
      let av ← settingsLookup convertsettings "AdapterRead2"
      let alen ← pyLen av
      let rv ← settingsLookup readsSec "Read2Cycles"
      let rq ← pyNum rv
      if ¬ ratLe (ratOfNat alen) rq then
        Except.error "BCLConvert_Settings.AdapterRead2 is longer then Reads.Read2Cycles"
      else pure ()
  else pure ()

/-- The BCLConvert_Data part of `illuminasamplesheetv2logic`: with more than
one sample, every sample needs an Index, the first (and second, if present)
indices must fit the length range of the cycles dict, and the combined index
(prefixed by the lane, when declared) must be unique. -/
def illuminaData (cycles : List (String × String)) (convdata : List Rec) :
    Except String Unit := do
  if convdata.length > 1 then do
    if ¬ convdata.all (fun r => recHas r "Index") then
      Except.error "No Index found in BCLConvert_Data, although it contains more than one sample"
    else do
      let index1 ← mapMEx (fun r =>
        match recLookup r "Index" with
        | some v => pure v
        | none => Except.error "KeyError") convdata
      let i1 ← (match odLookup cycles "Index1Cycles" with
        | some s => pure s
        | none => Except.error "KeyError")
      let minlen1 := (i1.data.filter (· = 'I')).length
      let maxlen1 := i1.data.length
      let lens1 ← mapMEx pyLen index1
      if ¬ lens1.all (fun n => minlen1 ≤ n ∧ n ≤ maxlen1) then
        Except.error
          "(At least some) First indices of the samples have a different length than what is specified in OverrideCycles"
      else do
        let index ← (
          if recHas (convdata.headD []) "Index2" then do
            let index2 ← mapMEx (fun r =>
              match recLookup r "Index2" with
              | some v => pure v
              | none => Except.error "KeyError") convdata
            let combined ← mapMEx (fun p => pyAdd p.1 p.2) (index1.zip index2)
            let i2 ← (match odLookup cycles "Index2Cycles" with
              | some s => pure s
              | none => Except.error "KeyError")
            let minlen2 := (i2.data.filter (· = 'I')).length
            let maxlen2 := i2.data.length
            let lens2 ← mapMEx pyLen index2
            if ¬ lens2.all (fun n => minlen2 ≤ n ∧ n ≤ maxlen2) then
              Except.error
                "(At least some) Second indices of the samples have a different length than what is specified in OverrideCycles"
            else pure combined
          else pure index1)
        let index ← (
          if recHas (convdata.headD []) "Lane" then do
            let lane ← mapMEx (fun r =>
              match recLookup r "Lane" with
              | some v => pure v
              | none => Except.error "KeyError") convdata
            mapMEx (fun p => pyAdd (.vstr (pyStr p.1)) p.2) (lane.zip index)
          else pure index)
        if (dedupValues index).length ≠ index.length then
          Except.error "Indices are not unique."
        else pure ()
  else pure ()

/-- `illuminasamplesheetv2logic` of validation.py. -/
def illuminasamplesheetv2logic (doc : SectionedSheet) : Except String Unit := do
  let cycles ← (
    if sheetHas doc "BCLConvert_Settings" then do
      let convertsettings ← sheetGet doc "BCLConvert_Settings"
      let readsSec ← sheetGet doc "Reads"
      let cycles ← illuminaCycles convertsettings readsSec
      illuminaAdapters convertsettings readsSec
      pure cycles
    else pure [])
  if sheetHas doc "BCLConvert_Data" then do
    let convSec ← sheetGet doc "BCLConvert_Data"
    let convdata ← asDataRows convSec
    illuminaData cycles convdata
  else pure ()

/-- `nextseq1k2klogic` of validation.py. -/
def nextseq1k2klogic (doc : SectionedSheet) : Except String Unit := do
  if sheetHas doc "BCLConvert_Settings" then do
    let cs ← sheetGet doc "BCLConvert_Settings"
    if keyIn "OverrideCycles" cs then do
      let ov ← settingsLookup cs "OverrideCycles"
      let cycles ← parse_overrideCycles (pyStr ov)
      let i1 ← (match odLookup cycles "Index1Cycles" with
        | some s => pure s
        | none => Except.error "KeyError")
      if i1.data.any (· = 'U') then
        Except.error "Index1 typically does not contain UMIs"
      else
        match odLookup cycles "Index2Cycles" with
        | some i2 =>
          if i2.data.length > 10 ∧ ¬ i2.data.any (· = 'U') then
            Except.error
              "Reads.Index2 must have a maximum length of 10 if it contains only an index and no UMIs."
          else pure ()
        | none => pure ()
    else pure ()
  else pure ()

/-! ## The validator engine (`validate` of validation.py)

A validator in the source is a JSON-schema dict or a callable.  Schema
evaluation is delegated to an external draft 2020-12 evaluator that only
reads the document; it is modelled as a pure function returning the list of
(json path, message) violations.  The callables of the library are the
domain predicates embedded above.  The Python document is passed by
reference, so the model threads the sheet through the call and returns it
together with the outcome: every embedded validator is a pure reader, as no
statement of the source assigns into the document. -/

inductive DomainPredicate where
  | illuminaV2
  | basespace
  | indexDistance (mindist : Option Int)
  | nextseq1k2k

def DomainPredicate.run : DomainPredicate → SectionedSheet → Except String Unit
  | .illuminaV2, doc => illuminasamplesheetv2logic doc
  | .basespace, doc => basespacelogic doc
  | .indexDistance md, doc => check_index_distance doc md
  | .nextseq1k2k, doc => nextseq1k2klogic doc

inductive PyValidator where
  | schema (check : SectionedSheet → List (String × String))
  | callable (p : DomainPredicate)

/-- The main loop of `validate`: a schema validator collects all its
violations and raises them together; a callable is invoked and its failure is
wrapped; the first failing validator aborts the list.  The pre-loop of the
source that rejects a list entry that is neither a dict nor callable is
vacuous here, the `PyValidator` type only holds such entries.  The returned
sheet is the state of the document after the call. -/
def validateGo (doc : SectionedSheet) :
    List PyValidator → Except String Unit × SectionedSheet
  | [] => (.ok (), doc)
  | .schema f :: rest =>
    match f doc with
    | [] => validateGo doc rest
    | [e] => (.error ("validator raised validation error: " ++ e.1 ++ ": " ++ e.2), doc)
    | es =>
      (.error ("validator raised validation errors: " ++
        String.intercalate "; " (es.map (fun e => e.1 ++ ": " ++ e.2))), doc)
  | .callable p :: rest =>
    match p.run doc with
    | .ok _ => validateGo doc rest
    | .error e =>
      (.error ("anonymous validation function raised validation error: " ++ e), doc)

/-- `validate` of validation.py (the bare-validator form is wrapped into a
one-element list by the source; the model takes the list). -/
def validate (doc : SectionedSheet) (validation : List PyValidator) :
    Except String Unit × SectionedSheet :=
  validateGo doc validation

/-! ## Claims -/

def isError : Except String Unit → Bool
  | .error _ => true
  | .ok _ => false

/-! Small reduction lemmas used to execute the embedded code symbolically. -/

theorem ebind_ok (x : α) (f : α → Except String β) :
    (Except.ok x >>= f) = f x := rfl

theorem ebind_error (e : String) (f : α → Except String β) :
    ((Except.error e : Except String α) >>= f) = Except.error e := rfl

theorem epure_eq (x : α) : (pure x : Except String α) = Except.ok x := rfl

theorem ratOfNat_eq (a : Nat) : ratOfNat a = (a : ℚ) := by
  simp [ratOfNat]

theorem ratLe_iff (x y : ℚ) : ratLe x y = true ↔ x ≤ y := by
  show (! Rat.blt y x) = true ↔ x ≤ y
  rw [Bool.not_eq_true']
  exact Iff.rfl

/-- C2: `parse_overrideCycles` assigns segments to roles by segment count
exactly as specified: "Y4" yields read 1 "YYYY" and no other role; "Y4;I3"
yields read 1 "YYYY" and index 1 "III"; "Y4;I3;I1N2" additionally yields
index 2 "INN"; "Y4;I3;Y2N1" instead yields read 2 "YYN"; "Y4;I3;I4;Y2"
yields read 1 "YYYY", index 1 "III", index 2 "IIII", read 2 "YY".  The
result dicts are given in full, so no other role is produced in any case. -/
theorem overrideCycles_role_assignment :
    parse_overrideCycles "Y4" = .ok [("Read1Cycles", "YYYY")] ∧
    parse_overrideCycles "Y4;I3" =
      .ok [("Read1Cycles", "YYYY"), ("Index1Cycles", "III")] ∧
    parse_overrideCycles "Y4;I3;I1N2" =
      .ok [("Read1Cycles", "YYYY"), ("Index1Cycles", "III"), ("Index2Cycles", "INN")] ∧
    parse_overrideCycles "Y4;I3;Y2N1" =
      .ok [("Read1Cycles", "YYYY"), ("Index1Cycles", "III"), ("Read2Cycles", "YYN")] ∧
    parse_overrideCycles "Y4;I3;I4;Y2" =
      .ok [("Read1Cycles", "YYYY"), ("Index1Cycles", "III"), ("Index2Cycles", "IIII"),
           ("Read2Cycles", "YY")] := by
  refine ⟨?_, ?_, ?_, ?_, ?_⟩ <;> decide

/-- The sheet of the index-distance scenario: two samples with single
indices ACAA and ACTT, no per-index mismatch-count settings present. -/
def sheetACAA : SectionedSheet :=
  [("Reads", .settings []),
   ("BCLConvert_Settings", .settings []),
   ("BCLConvert_Data", .data
     [[(some "Sample_ID", .vstr "a"), (some "Index", .vstr "ACAA")],
      [(some "Sample_ID", .vstr "b"), (some "Index", .vstr "ACTT")]])]

/-- C3: with no per-index mismatch-count settings present, the two samples
with indices ACAA and ACTT (Hamming distance 2) pass under the default
per-index mismatch threshold 1; they fail when the explicit combined minimum
distance 3 is supplied; they pass again with mindist 2. -/
theorem index_distance_default_and_mindist :
    check_index_distance sheetACAA none = .ok () ∧
    isError (check_index_distance sheetACAA (some 3)) = true ∧
    check_index_distance sheetACAA (some 2) = .ok () := by
  refine ⟨?_, ?_, ?_⟩ <;> decide

/-- A sheet with exactly one sample whose single index is `s`, and no
per-index mismatch-count settings. -/
def singleSampleSheet (s : String) : SectionedSheet :=
  [("BCLConvert_Settings", .settings []),
   ("BCLConvert_Data", .data [[(some "Sample_ID", .vstr "a"), (some "Index", .vstr s)]])]

/-- Symbolic execution of `check_index_distance` on the one-sample sheet: the
whole check collapses to comparing the length of the single index string
against the default mismatch threshold 1. -/
theorem single_sample_check (s : String) :
    check_index_distance (singleSampleSheet s) none =
      (bif ratLe (ratOfNat s.length) (mkRat 1 1) then
         Except.error "Indices are too close and undistinguishable"
       else Except.ok ()) := by
  have h1 : check_index_distance (singleSampleSheet s) none =
      check_index (singleSampleSheet s) ["Index"] ["BarcodeMismatchesIndex1"] none := rfl
  rw [h1]
  have e1 : ((some "Sample_ID" : Option String) == some "Lane") = false := rfl
  have e2 : ((some "Index" : Option String) == some "Lane") = false := rfl
  have e3 : ((some "Sample_ID" : Option String) == some "Index") = false := rfl
  have e4 : ((some "Index" : Option String) == some "Index") = true := rfl
  have e5 : (("BCLConvert_Settings" : String) == "BCLConvert_Data") = false := rfl
  have e6 : (("BCLConvert_Data" : String) == "BCLConvert_Data") = true := rfl
  have e7 : (("BCLConvert_Settings" : String) == "BCLConvert_Settings") = true := rfl
  cases hb : ratLe (ratOfNat s.length) (mkRat 1 1) <;>
    simp only [check_index, singleSampleSheet, sheetGet, asDataRows, recHas, recLookup,
      indexField, index_distances, dedupKeepOrder, dedupGo, keyIn, settingsLookup, odLookup,
      pyInt, pyNum, mapMEx, forMEx, filterMEx, List.find?, List.any, List.all,
      List.filter, List.range, List.range.loop, combinations2, hb, cond,
      e1, e2, e3, e4, e5, e6, e7, ebind_ok, ebind_error, epure_eq, Option.map,
      Bool.false_eq_true, eq_self_iff_true, ite_true, ite_false, reduceIte,
      decide_eq_true_eq, Bool.false_or, Bool.or_false, Bool.true_and,
      Bool.and_true, Bool.false_and, Bool.and_false, Bool.or_true, Bool.true_or,
      if_true, if_false, List.get?, Option.getD, ne_eq, List.cons_ne_nil,
      not_true, not_false_iff, List.map]

/-- C10: when a lane group contains exactly one sample, `index_distances`
returns the length of the single index string in place of a pairwise
distance, and consequently `check_index_distance` raises an
indistinguishability error for a one-sample sheet whose index is no longer
than the default threshold 1, although no pair of distinct samples exists. -/
theorem single_sample_short_index_rejected (s : String) (h : s.length ≤ 1) :
    index_distances [[s]] = .ok [([s.length], [s], [s])] ∧
    isError (check_index_distance (singleSampleSheet s) none) = true := by
  constructor
  · rfl
  · have hb : ratLe (ratOfNat s.length) (mkRat 1 1) = true := by
      rw [ratLe_iff, ratOfNat_eq]
      have h2 : (mkRat 1 1 : ℚ) = ((1 : Nat) : ℚ) := by rw [← ratOfNat_eq]; rfl
      rw [h2]
      exact_mod_cast h
    rw [single_sample_check s, hb]
    rfl

/-- Witness for C10 at the one-character index "A". -/
theorem single_sample_short_index_rejected_witness :
    ("A" : String).length ≤ 1 ∧
    (index_distances [["A"]] = .ok [([("A" : String).length], ["A"], ["A"])] ∧
     isError (check_index_distance (singleSampleSheet "A") none) = true) :=
  ⟨by decide, single_sample_short_index_rejected "A" (by decide)⟩

/-- C5: `parse_anything` dispatches on the section name deterministically: a
name ending case-insensitively in "settings" is parsed as Settings and a
Settings failure propagates without falling through; otherwise a name ending
in "data" is parsed as Data; for any other name Settings, Data and Array are
attempted in this order, the first success is returned, and when all three
fail the error is "Cannot guess section type". -/
theorem parse_anything_dispatch :
    (∀ name body, settingsSuffixed name = true →
        parse_anything name body = (parse_settings body).map SheetSection.settings) ∧
    (∀ name body, settingsSuffixed name = false → dataSuffixed name = true →
        parse_anything name body = (parse_data body).map SheetSection.data) ∧
    (∀ name body s, settingsSuffixed name = false → dataSuffixed name = false →
        parse_settings body = .ok s →
        parse_anything name body = .ok (.settings s)) ∧
    (∀ name body e d, settingsSuffixed name = false → dataSuffixed name = false →
        parse_settings body = .error e → parse_data body = .ok d →
        parse_anything name body = .ok (.data d)) ∧
    (∀ name body e1 e2 a, settingsSuffixed name = false → dataSuffixed name = false →
        parse_settings body = .error e1 → parse_data body = .error e2 →
        parse_array body = .ok a →
        parse_anything name body = .ok (.array a)) ∧
    (∀ name body e1 e2 e3, settingsSuffixed name = false → dataSuffixed name = false →
        parse_settings body = .error e1 → parse_data body = .error e2 →
        parse_array body = .error e3 →
        parse_anything name body = .error "Cannot guess section type") := by
  refine ⟨?_, ?_, ?_, ?_, ?_, ?_⟩ <;>
    · intro name body
      intros
      simp [parse_anything, *]

/-- Witness for C5: the same two-column body parses as Settings under a
"settings"-suffixed name and as Data under a "data"-suffixed name; under a
neutral name the three parsers are tried in order; a body that defeats all
three gives the guess error. -/
theorem parse_anything_dispatch_witness :
    parse_anything "Foo_Settings" "A,1\nB,2" =
      .ok (.settings [("A", .vint 1), ("B", .vint 2)]) ∧
    parse_anything "Foo_Data" "A,1\nB,2" =
      .ok (.data [[(some "A", .vstr "B"), (some "1", .vint 2)]]) ∧
    parse_anything "Other" "A,1\nB,2" =
      .ok (.settings [("A", .vint 1), ("B", .vint 2)]) ∧
    parse_anything "Other" "A,B,C\n1,2,3" =
      .ok (.data [[(some "A", .vint 1), (some "B", .vint 2), (some "C", .vint 3)]]) ∧
    parse_anything "Other" "justone" = .ok (.array [.vstr "justone"]) ∧
    parse_anything "Other" "a,b,c" = .error "Cannot guess section type" := by
  have h := parse_anything_dispatch
  refine ⟨?_, ?_, ?_, ?_, ?_, ?_⟩
  · rw [h.1 "Foo_Settings" _ (by decide)]; decide
  · rw [h.2.1 "Foo_Data" _ (by decide) (by decide)]; decide
  · exact h.2.2.1 "Other" _ _ (by decide) (by decide) (by decide)
  · exact h.2.2.2.1 "Other" _ "string cannot be parsed into Settings, because it is not a two-columns section." _ (by decide) (by decide) (by decide) (by decide)
  · exact h.2.2.2.2.1 "Other" _ "string cannot be parsed into Settings, because it is not a two-columns section." "no content in Data Section" _ (by decide) (by decide) (by decide) (by decide) (by decide)
  · exact h.2.2.2.2.2 "Other" _ "string cannot be parsed into Settings, because it is not a two-columns section." "no content in Data Section" "string cannot be parsed into Array, because it is not a single column section." (by decide) (by decide) (by decide) (by decide) (by decide)

/-- C9: `validate` never mutates the sheet: for every document and every
list of validators (schemas and domain predicates), the document that comes
back out of the call is the one that went in, whether the call succeeds or
raises.  Every embedded validator is a pure reader of the sheet, mirroring
the source functions, which contain no assignment into the document. -/
theorem validate_preserves_sheet (doc : SectionedSheet) (vs : List PyValidator) :
    (validate doc vs).2 = doc := by
  induction vs with
  | nil => rfl
  | cons v rest ih =>
    cases v with
    | schema f =>
      show (validateGo doc (.schema f :: rest)).2 = doc
      simp only [validateGo]
      cases hf : f doc with
      | nil => exact ih
      | cons e es => cases es <;> simp
    | callable p =>
      show (validateGo doc (.callable p :: rest)).2 = doc
      simp only [validateGo]
      cases hp : p.run doc with
      | ok u => exact ih
      | error e => simp

theorem countP_ne_comm (x y : List Char) (n : Nat) :
    (List.range n).countP (fun i => x.get? i ≠ y.get? i) =
      (List.range n).countP (fun i => y.get? i ≠ x.get? i) :=
  List.countP_congr (fun i _ => by simp [ne_comm])

theorem countP_zip_pad (x y : List Char) (h : x.length ≤ y.length) :
    (List.range y.length).countP
        (fun i => (x ++ y.drop x.length).get? i ≠ y.get? i) =
      (List.range x.length).countP (fun i => x.get? i ≠ y.get? i) := by
  rw [show y.length = x.length + (y.length - x.length) by omega, List.range_add,
      List.countP_append]
  have h1 : (List.range x.length).countP
      (fun i => (x ++ y.drop x.length).get? i ≠ y.get? i) =
      (List.range x.length).countP (fun i => x.get? i ≠ y.get? i) := by
    apply List.countP_congr
    intro i hi
    rw [List.mem_range] at hi
    simp [List.get?_eq_getElem?, List.getElem?_append_left hi]
  have h2 : ((List.range (y.length - x.length)).map (fun j => x.length + j)).countP
      (fun i => (x ++ y.drop x.length).get? i ≠ y.get? i) = 0 := by
    rw [List.countP_map, List.countP_eq_zero]
    intro j hj
    simp only [Function.comp, List.get?_eq_getElem?]
    rw [List.getElem?_append_right (by omega), Nat.add_sub_cancel_left, List.getElem?_drop]
    simp
  rw [h1, h2, Nat.add_zero]

theorem pidPad_count (x y : List Char) (h : x.length ≤ y.length) :
    (List.range (pidPad x y).length).countP
        (fun i => (pidPad x y).get? i ≠ y.get? i) =
      (List.range x.length).countP (fun i => x.get? i ≠ y.get? i) := by
  by_cases hlt : x.length < y.length
  · rw [pidPad, if_pos hlt, show y.length - (y.length - x.length) = x.length by omega]
    have hlen : (x ++ y.drop x.length).length = y.length := by
      simp
      omega
    rw [hlen, countP_zip_pad x y h]
  · rw [pidPad, if_neg hlt]

/-- C4: for all index strings a and b, `pairwise_index_distance a b` equals
the number of positions below `min (len a) (len b)` at which the two strings
differ: only the overlapping prefix contributes to the Hamming distance, the
excess tail of the longer string contributes nothing. -/
theorem pairwise_index_distance_spec (a b : String) :
    pairwise_index_distance a b =
      (List.range (min a.length b.length)).countP
        (fun i => a.data.get? i ≠ b.data.get? i) := by
  show (List.range (pidPad (pidShorter a.data b.data) (pidLonger a.data b.data)).length).countP
      (fun i => (pidPad (pidShorter a.data b.data) (pidLonger a.data b.data)).get? i ≠
        (pidLonger a.data b.data).get? i) =
    (List.range (min a.data.length b.data.length)).countP
      (fun i => a.data.get? i ≠ b.data.get? i)
  by_cases h : a.data.length < b.data.length
  · rw [pidShorter, pidLonger, if_pos h, if_neg (by omega)]
    rw [pidPad_count _ _ h.le, min_eq_left h.le]
  · rw [pidShorter, pidLonger, if_neg h, if_pos (by omega)]
    rw [pidPad_count _ _ (by omega), min_eq_right (by omega : b.data.length ≤ a.data.length),
        countP_ne_comm]

/-! ### C7 -/

theorem foldlMEx_append (f : β → α → Except String β) (init : β) (l1 l2 : List α) :
    foldlMEx f init (l1 ++ l2) =
      (foldlMEx f init l1 >>= fun m => foldlMEx f m l2) := by
  induction l1 generalizing init with
  | nil => rfl
  | cons x xs ih =>
    simp only [List.cons_append, foldlMEx]
    cases hf : f init x with
    | ok y => simp [ebind_ok, ih]
    | error e => simp [ebind_error]

theorem settingsFromRows_ok_elim (rows : List (List String)) (s : List (String × Value))
    (h : settingsFromRows rows = .ok s) :
    ∃ r rest, rows = r :: rest ∧ ((r.filter (· ≠ "")).length = 2) ∧
      foldlMEx settingsStep [] rows = .ok s := by
  cases rows with
  | nil => exact absurd h (by simp [settingsFromRows])
  | cons r rest =>
    by_cases hc : (r.filter (· ≠ "")).length = 2
    · refine ⟨r, rest, rfl, hc, ?_⟩
      rw [settingsFromRows, if_neg (not_ne_iff.mpr hc)] at h
      exact h
    · rw [settingsFromRows, if_pos hc] at h
      cases h

theorem settingsFromRows_append (rows : List (List String)) (s : List (String × Value))
    (row : List String) (h : settingsFromRows rows = .ok s) :
    settingsFromRows (rows ++ [row]) = settingsStep s row := by
  obtain ⟨r, rest, hr, hc, hf⟩ := settingsFromRows_ok_elim rows s h
  subst hr
  rw [List.cons_append, settingsFromRows, if_neg (not_ne_iff.mpr hc), ← List.cons_append,
      foldlMEx_append, hf, ebind_ok]
  cases hs : settingsStep s row <;> simp [foldlMEx, hs, ebind_ok, ebind_error]

/-- Counterexample to C7: the body "a,1\nb,1,2" contains a line with three
comma-separated fields at a position after the first, yet `parse_settings`
accepts it without any error, keeping the first two fields of that line.
The claim demands a hard parse error for any line with three or more
fields. -/
theorem parse_settings_extra_fields_cex :
    parse_settings "a,1\nb,1,2" = .ok [("a", .vint 1), ("b", .vint 1)] := by decide

/-- C7 as amended: the two-field requirement of `parse_settings` is enforced
only on the first csv record (counting its non-empty fields, with a generic
error that names no line); a later record with two or more fields and a
non-empty first field is accepted, its first two fields becoming key and
value; a later one-field record raises an IndexError (that names no line); a
record with an empty first field is skipped; an empty record raises an
IndexError rather than being skipped. -/
theorem parse_settings_row_semantics :
    (∀ r rows, (r.filter (· ≠ "")).length ≠ 2 →
      settingsFromRows (r :: rows) =
        .error "string cannot be parsed into Settings, because it is not a two-columns section.") ∧
    (∀ rows s k v extra, settingsFromRows rows = .ok s → k ≠ "" →
      settingsFromRows (rows ++ [k :: v :: extra]) = .ok (odInsert s k (parse_value v))) ∧
    (∀ rows s extra, settingsFromRows rows = .ok s →
      settingsFromRows (rows ++ [("" :: extra)]) = .ok s) ∧
    (∀ rows s k, settingsFromRows rows = .ok s → k ≠ "" →
      settingsFromRows (rows ++ [[k]]) = .error "IndexError") ∧
    (∀ rows s, settingsFromRows rows = .ok s →
      settingsFromRows (rows ++ [([] : List String)]) = .error "IndexError") := by
  refine ⟨?_, ?_, ?_, ?_, ?_⟩
  · intro r rows hr
    rw [settingsFromRows, if_pos hr]
  · intro rows s k v extra h hk
    rw [settingsFromRows_append rows s _ h]
    simp [settingsStep, hk]
  · intro rows s extra h
    rw [settingsFromRows_append rows s _ h]
    simp [settingsStep]
  · intro rows s k h hk
    rw [settingsFromRows_append rows s _ h]
    simp [settingsStep, hk]
  · intro rows s h
    rw [settingsFromRows_append rows s _ h]
    simp [settingsStep]

/-- Witness for the amended C7 at concrete rows. -/
theorem parse_settings_row_semantics_witness :
    settingsFromRows [["x", "1", "2"]] =
      .error "string cannot be parsed into Settings, because it is not a two-columns section." ∧
    settingsFromRows [["a", "1"], ["b", "3", "4"]] = .ok [("a", .vint 1), ("b", .vint 3)] ∧
    settingsFromRows [["a", "1"], ["", "z"]] = .ok [("a", .vint 1)] ∧
    settingsFromRows [["a", "1"], ["b"]] = .error "IndexError" ∧
    settingsFromRows [["a", "1"], []] = .error "IndexError" := by
  have h := parse_settings_row_semantics
  refine ⟨h.1 _ _ (by decide), ?_, ?_, ?_, ?_⟩
  · exact (h.2.1 [["a", "1"]] [("a", .vint 1)] "b" "3" ["4"] (by decide) (by decide)).trans
      (by decide)
  · exact h.2.2.1 [["a", "1"]] [("a", .vint 1)] ["z"] (by decide)
  · exact h.2.2.2.1 [["a", "1"]] [("a", .vint 1)] "b" (by decide) (by decide)
  · exact h.2.2.2.2 [["a", "1"]] [("a", .vint 1)] (by decide)

/-! ### C6 -/

theorem dropWhile_append_all (p : α → Bool) (xs ys : List α) (h : ∀ x ∈ xs, p x = true) :
    (xs ++ ys).dropWhile p = ys.dropWhile p := by
  induction xs with
  | nil => rfl
  | cons a l ih =>
    rw [List.cons_append, List.dropWhile_cons, if_pos (h a (by simp))]
    exact ih (fun x hx => h x (by simp [hx]))

theorem takeWhile_append_all (p : α → Bool) (xs ys : List α) (h : ∀ x ∈ xs, p x = true) :
    (xs ++ ys).takeWhile p = xs ++ ys.takeWhile p := by
  induction xs with
  | nil => rfl
  | cons a l ih =>
    rw [List.cons_append, List.takeWhile_cons, if_pos (h a (by simp)), List.cons_append,
        ih (fun x hx => h x (by simp [hx]))]

theorem sectionScan_marker (name tail body rest : List Char)
    (hname : ∀ c ∈ name, wordChar c = true)
    (htail : ∀ c ∈ tail, c ≠ '\n')
    (hbody : ∀ c ∈ body, c ≠ '[')
    (hrest : rest = [] ∨ ∃ r, rest = '[' :: r) :
    sectionScan ('[' :: (name ++ ']' :: (tail ++ '\n' :: (body ++ rest)))) =
      (String.mk name, String.mk body) :: sectionScan rest := by
  have hdw1 : (name ++ ']' :: (tail ++ '\n' :: (body ++ rest))).dropWhile wordChar =
      ']' :: (tail ++ '\n' :: (body ++ rest)) := by
    rw [dropWhile_append_all wordChar name _ hname, List.dropWhile_cons,
        if_neg (by decide)]
  have htw1 : (name ++ ']' :: (tail ++ '\n' :: (body ++ rest))).takeWhile wordChar = name := by
    rw [takeWhile_append_all wordChar name _ hname, List.takeWhile_cons,
        if_neg (by decide), List.append_nil]
  have hdw2 : (tail ++ '\n' :: (body ++ rest)).dropWhile (· ≠ '\n') =
      '\n' :: (body ++ rest) := by
    rw [dropWhile_append_all _ tail _ (fun c hc => by simpa using htail c hc),
        List.dropWhile_cons, if_neg (by decide)]
  have htw3 : (body ++ rest).takeWhile (· ≠ '[') = body := by
    rw [takeWhile_append_all _ body _ (fun c hc => by simpa using hbody c hc)]
    rcases hrest with h | ⟨r, h⟩ <;> subst h
    · simp
    · rw [List.takeWhile_cons, if_neg (by decide), List.append_nil]
  have hdw3 : (body ++ rest).dropWhile (· ≠ '[') = rest := by
    rw [dropWhile_append_all _ body _ (fun c hc => by simpa using hbody c hc)]
    rcases hrest with h | ⟨r, h⟩ <;> subst h
    · simp
    · rw [List.dropWhile_cons, if_neg (by decide)]
  show sectionScanGo _ _ = _
  rw [List.length_cons]
  rw [sectionScanGo, if_pos rfl, hdw1]
  simp only [List.head?, List.tail, hdw2, htw1, htw3, hdw3]
  simp only [if_true]
  have hlen : rest.length < (name ++ ']' :: (tail ++ '\n' :: (body ++ rest))).length + 1 := by
    simp [List.length_append]
    omega
  rw [sectionScanGo_fuel _ (rest.length + 1) rest (by simpa using hlen) (Nat.lt_succ_self _)]
  rfl

theorem sectionScan_skip (c : Char) (cs : List Char) (hc : c ≠ '[') :
    sectionScan (c :: cs) = sectionScan cs := by
  show sectionScanGo ((c :: cs).length + 1) (c :: cs) = sectionScan cs
  rw [List.length_cons, sectionScanGo, if_neg hc]
  rfl

/-- Counterexample to C6: in the text "[A]\nkey,val[B]\nkey2,val2\n" the
bracket of "[B]" sits in the middle of a body line, yet it terminates the
body of section A (which the claim says must contain the whole rest) and the
mid-line "[B]" opens a second section B. -/
theorem parse_sectionedsheet_bracket_cex :
    parse_sectionedsheet "[A]\nkey,val[B]\nkey2,val2\n" =
      .ok [("A", .settings [("key", .vstr "val")]),
           ("B", .settings [("key2", .vstr "val2")])] := by decide

/-- C6 as amended: scanning for sections skips any character other than an
opening bracket; an occurrence of an opening bracket followed by a word-
character name, a closing bracket, any rest of line and a newline opens a
section anywhere in the text, not only at the start of a line; the body of
the opened section runs up to (not including) the next opening bracket
anywhere, even in the middle of a line, or to the end of input; and
`parse_sectionedsheet` parses exactly the sections found this way. -/
theorem parse_sectionedsheet_splitting :
    (∀ c cs, c ≠ '[' → sectionScan (c :: cs) = sectionScan cs) ∧
    (∀ name tail body rest, (∀ c ∈ name, wordChar c = true) →
      (∀ c ∈ tail, c ≠ '\n') → (∀ c ∈ body, c ≠ '[') →
      (rest = [] ∨ ∃ r, rest = '[' :: r) →
      sectionScan ('[' :: (name ++ ']' :: (tail ++ '\n' :: (body ++ rest)))) =
        (String.mk name, String.mk body) :: sectionScan rest) ∧
    (∀ contents, parse_sectionedsheet contents =
      foldlMEx (fun res nc =>
        match parse_anything nc.1 (rstripChars nc.2 ['\n', ' ']) with
        | .ok sec => .ok (odInsert res nc.1 sec)
        | .error e => .error ("Error parsing section " ++ nc.1 ++ ": " ++ e)) []
        (sectionScan contents.data)) :=
  ⟨sectionScan_skip, sectionScan_marker, fun _ => rfl⟩

/-- Witness for the amended C6: a mid-line marker opens a section and a
bracket terminates the running body. -/
theorem parse_sectionedsheet_splitting_witness :
    sectionScan ('x' :: "[A]\nk,v\n".data) = sectionScan "[A]\nk,v\n".data ∧
    sectionScan ('[' :: ("Sec".data ++ ']' :: (" x".data ++ '\n' :: ("k,v\n".data ++ [])))) =
      ("Sec", "k,v\n") :: sectionScan [] := by
  have h := parse_sectionedsheet_splitting
  exact ⟨h.1 'x' _ (by decide),
    h.2.1 "Sec".data " x".data "k,v\n".data [] (by decide) (by decide) (by decide) (Or.inl rfl)⟩

/-! ### C8 -/

def pyKey : Value → Sum Rat (Sum String (Sum Unit (List String)))
  | .vint n => .inl (mkRat n 1)
  | .vfloat q => .inl q
  | .vbool b => .inl (mkRat (if b then 1 else 0) 1)
  | .vstr s => .inr (.inl s)
  | .vnull => .inr (.inr (.inl ()))
  | .vlist xs => .inr (.inr (.inr xs))

theorem pyEq_eq_key (a b : Value) : pyEq a b = decide (pyKey a = pyKey b) := by
  cases a <;> cases b <;>
    simp only [pyEq, pyKey, valAsRat, Sum.inl.injEq, Sum.inr.injEq, decide_eq_true_eq] <;>
    first
      | rfl
      | (rename_i x y
         by_cases h : x = y <;> simp [h])

theorem pyEq_refl (a : Value) : pyEq a a = true := by simp [pyEq_eq_key]

theorem pyEq_symm (a b : Value) : pyEq a b = pyEq b a := by
  simp [pyEq_eq_key, eq_comm]

theorem pyEq_trans (a b c : Value) (h1 : pyEq a b = true) (h2 : pyEq b c = true) :
    pyEq a c = true := by
  simp only [pyEq_eq_key, decide_eq_true_eq] at h1 h2 ⊢
  exact h1.trans h2

theorem forMEx_ok_iff (f : α → Except String Unit) (l : List α) :
    forMEx f l = .ok () ↔ ∀ x ∈ l, f x = .ok () := by
  induction l with
  | nil => simp [forMEx]
  | cons x xs ih =>
    simp only [forMEx]
    cases hf : f x with
    | ok u =>
      cases u
      simp [ebind_ok, ih, hf]
    | error e => simp [ebind_error, hf]

theorem except_seq_ok (a b : Except String Unit) :
    (a >>= fun _ => b) = .ok () ↔ a = .ok () ∧ b = .ok () := by
  cases a with
  | ok u => cases u; simp [ebind_ok]
  | error e => simp [ebind_error]

theorem vdInsert_append (m : List (Value × Rec)) (k : Value) (v : Rec)
    (h : ∀ p ∈ m, pyEq p.1 k = false) :
    vdInsert m k v = m ++ [(k, v)] := by
  have hany : m.any (fun p => pyEq p.1 k) = false := by
    rw [List.any_eq_false]
    intro p hp
    simp [h p hp]
  simp [vdInsert, hany]

theorem vdOfPairs_aux (l : List (Value × Rec)) (acc : List (Value × Rec))
    (hcross : ∀ x ∈ l, ∀ p ∈ acc, pyEq p.1 x.1 = false)
    (hl : l.Pairwise (fun a b => pyEq a.1 b.1 = false)) :
    l.foldl (fun acc p => vdInsert acc p.1 p.2) acc = acc ++ l := by
  induction l generalizing acc with
  | nil => simp
  | cons x xs ih =>
    rw [List.foldl_cons, vdInsert_append acc x.1 x.2 (fun p hp => hcross x (by simp) p hp)]
    rw [ih (acc ++ [x]) ?hc (List.Pairwise.sublist (List.sublist_cons_self x xs) hl)]
    · simp
    case hc =>
      intro y hy p hp
      rcases List.mem_append.mp hp with hpa | hpx
      · exact hcross y (by simp [hy]) p hpa
      · have hx : p = x := by simpa using hpx
        subst hx
        exact (List.pairwise_cons.mp hl).1 y hy

theorem vdOfPairs_pairwise (l : List (Value × Rec))
    (h : l.Pairwise (fun a b => pyEq a.1 b.1 = false)) : vdOfPairs l = l := by
  have := vdOfPairs_aux l [] (by simp) h
  simpa [vdOfPairs] using this

theorem vdLookup_unique (l : List (Value × Rec)) (q : Value × Rec) (k : Value)
    (hnd : l.Pairwise (fun a b => pyEq a.1 b.1 = false))
    (hq : q ∈ l) (hk : pyEq q.1 k = true) :
    vdLookup l k = some q.2 := by
  induction l with
  | nil => cases hq
  | cons a t ih =>
    rcases List.mem_cons.mp hq with rfl | hmem
    · simp [vdLookup, List.find?_cons, hk]
    · have hne : pyEq a.1 k = false := by
        cases hpa : pyEq a.1 k with
        | false => rfl
        | true =>
          have h1 : pyEq a.1 q.1 = true :=
            pyEq_trans a.1 k q.1 hpa (by rw [pyEq_symm]; exact hk)
          have h2 : pyEq a.1 q.1 = false := (List.pairwise_cons.mp hnd).1 q hmem
          rw [h1] at h2
          cases h2
      have ihv := ih (List.Pairwise.sublist (List.sublist_cons_self a t) hnd) hmem
      simpa [vdLookup, List.find?_cons, hne] using ihv

/-- A document holding exactly the two sample tables. -/
def basespaceDoc (cloudRows convRows : List Rec) : SectionedSheet :=
  [("Cloud_Data", .data cloudRows), ("BCLConvert_Data", .data convRows)]

theorem checkPair_ok_iff (cs vs : Rec) (idx : String) :
    (if recHas cs idx && recHas vs idx then
       if ! pyEq ((recLookup cs idx).getD .vnull) ((recLookup vs idx).getD .vnull) then
         Except.error "Index does not match between Cloud_Data and BCLConvert_Data"
       else pure ()
     else pure ()) = Except.ok () ↔
    (recHas cs idx = true → recHas vs idx = true →
      pyEq ((recLookup cs idx).getD .vnull) ((recLookup vs idx).getD .vnull) = true) := by
  by_cases h1 : recHas cs idx = true <;> by_cases h2 : recHas vs idx = true <;>
    by_cases h3 : pyEq ((recLookup cs idx).getD .vnull) ((recLookup vs idx).getD .vnull) = true <;>
    simp [h1, h2, h3, epure_eq]

theorem basespacelogic_doc_eq (cloudRows convRows : List Rec) :
    basespacelogic (basespaceDoc cloudRows convRows) =
      (do
        let cloudIds ← sampleIds cloudRows
        let convIds ← sampleIds convRows
        forMEx (fun cid =>
          if cloudIds.any (fun x => pyEq x cid) then pure ()
          else Except.error
            "Sample_ID is defined in the BCLConvert_Data section, but not in the Cloud_Data section.")
          convIds
        forMEx (fun sid => do
          let cs := (vdLookup (vdOfPairs (cloudIds.zip cloudRows)) sid).getD []
          let vs := (vdLookup (vdOfPairs (convIds.zip convRows)) sid).getD []
          forMEx (fun idx =>
            if recHas cs idx && recHas vs idx then
              if ! pyEq ((recLookup cs idx).getD .vnull) ((recLookup vs idx).getD .vnull) then
                Except.error "Index does not match between Cloud_Data and BCLConvert_Data"
              else pure ()
            else pure ()) (["Index", "Index2"] : List String))
          (((vdOfPairs (cloudIds.zip cloudRows)).map (·.1)).filter (fun k =>
            (vdOfPairs (convIds.zip convRows)).any (fun p => pyEq p.1 k)))) := rfl

/-- C8 as amended: for two tables whose records all carry Sample_ID and
whose identifiers are pairwise distinct under Python equality,
`basespacelogic` completes silently exactly when every identifier of
BCLConvert_Data appears in Cloud_Data (an identifier only in Cloud_Data is
allowed) and every pair of records with equal identifiers agrees on each
index field ("Index", "Index2") that both declare. -/
theorem basespacelogic_spec (cloudRows convRows : List Rec)
    (cloudIds convIds : List Value)
    (hc : sampleIds cloudRows = .ok cloudIds)
    (hv : sampleIds convRows = .ok convIds)
    (hndc : (cloudIds.zip cloudRows).Pairwise (fun a b => pyEq a.1 b.1 = false))
    (hndv : (convIds.zip convRows).Pairwise (fun a b => pyEq a.1 b.1 = false)) :
    basespacelogic (basespaceDoc cloudRows convRows) = .ok () ↔
      ((∀ id ∈ convIds, cloudIds.any (fun x => pyEq x id) = true) ∧
       (∀ p ∈ cloudIds.zip cloudRows, ∀ q ∈ convIds.zip convRows, pyEq p.1 q.1 = true →
         ∀ idx ∈ (["Index", "Index2"] : List String),
           recHas p.2 idx = true → recHas q.2 idx = true →
           pyEq ((recLookup p.2 idx).getD .vnull) ((recLookup q.2 idx).getD .vnull) = true)) := by
  rw [basespacelogic_doc_eq, hc, ebind_ok, hv, ebind_ok,
      vdOfPairs_pairwise _ hndc, vdOfPairs_pairwise _ hndv, except_seq_ok,
      forMEx_ok_iff, forMEx_ok_iff]
  constructor
  · rintro ⟨h1, h2⟩
    constructor
    · intro id hid
      have hi := h1 id hid
      cases hany : cloudIds.any (fun x => pyEq x id) with
      | true => rfl
      | false => simp [hany] at hi
    · intro p hp q hq hpq idx hidx hcs hvs
      have hsid : p.1 ∈ (((cloudIds.zip cloudRows)).map (·.1)).filter (fun k =>
          (convIds.zip convRows).any (fun pr => pyEq pr.1 k)) := by
        rw [List.mem_filter]
        refine ⟨List.mem_map_of_mem _ hp, ?_⟩
        rw [List.any_eq_true]
        exact ⟨q, hq, by rw [pyEq_symm]; exact hpq⟩
      have hforM := h2 p.1 hsid
      rw [forMEx_ok_iff] at hforM
      have hinner := hforM idx hidx
      rw [vdLookup_unique _ p p.1 hndc hp (pyEq_refl p.1),
          vdLookup_unique _ q p.1 hndv hq (by rw [pyEq_symm]; exact hpq)] at hinner
      simp only [Option.getD_some] at hinner
      rw [checkPair_ok_iff] at hinner
      exact hinner hcs hvs
  · rintro ⟨h1, h2⟩
    constructor
    · intro id hid
      simp [h1 id hid, epure_eq]
    · intro sid hsid
      rw [forMEx_ok_iff]
      intro idx hidx
      rw [List.mem_filter] at hsid
      obtain ⟨hmap, hany⟩ := hsid
      obtain ⟨p, hp, hpk⟩ := List.mem_map.mp hmap
      obtain ⟨q, hq, hqk⟩ := List.any_eq_true.mp hany
      rw [vdLookup_unique _ p sid hndc hp (by rw [← hpk]; exact pyEq_refl p.1),
          vdLookup_unique _ q sid hndv hq hqk]
      simp only [Option.getD_some]
      rw [checkPair_ok_iff]
      intro hcs hvs
      refine h2 p hp q hq ?_ idx hidx hcs hvs
      exact pyEq_trans p.1 sid q.1 (by rw [hpk]; exact pyEq_refl sid)
        (by rw [pyEq_symm]; exact hqk)

/-- Counterexample to C8: identifier s2 appears in Cloud_Data only — it is
missing from BCLConvert_Data — yet `basespacelogic` completes silently; the
claim requires an error for an identifier present in exactly one of the two
tables. -/
theorem basespace_cloud_only_cex :
    basespacelogic (basespaceDoc
      [[(some "Sample_ID", .vstr "s1"), (some "Index", .vstr "ACAA")],
       [(some "Sample_ID", .vstr "s2"), (some "Index", .vstr "ACTT")]]
      [[(some "Sample_ID", .vstr "s1"), (some "Index", .vstr "ACAA")]]) = .ok () ∧
    sampleIds [[(some "Sample_ID", .vstr "s1"), (some "Index", .vstr "ACAA")],
               [(some "Sample_ID", .vstr "s2"), (some "Index", .vstr "ACTT")]] =
      .ok [.vstr "s1", .vstr "s2"] ∧
    sampleIds [[(some "Sample_ID", .vstr "s1"), (some "Index", .vstr "ACAA")]] =
      .ok [.vstr "s1"] ∧
    ([Value.vstr "s1"].any (fun x => pyEq x (.vstr "s2"))) = false := by
  refine ⟨?_, ?_, ?_, ?_⟩ <;> decide

/-- Witness for the amended C8 at a matching one-sample pair of tables. -/
theorem basespacelogic_spec_witness :
    basespacelogic (basespaceDoc
      [[(some "Sample_ID", .vstr "s1"), (some "Index", .vstr "ACAA")]]
      [[(some "Sample_ID", .vstr "s1"), (some "Index", .vstr "ACAA")]]) = .ok () := by
  rw [basespacelogic_spec
      [[(some "Sample_ID", .vstr "s1"), (some "Index", .vstr "ACAA")]]
      [[(some "Sample_ID", .vstr "s1"), (some "Index", .vstr "ACAA")]]
      [.vstr "s1"] [.vstr "s1"] (by decide) (by decide) (by decide) (by decide)]
  refine ⟨?_, ?_⟩ <;> decide

/-! ### C1 -/

/-- Inserting a fresh key into an ordered dict appends it. -/
theorem odInsert_append_fresh [BEq κ] (m : List (κ × α)) (k : κ) (v : α)
    (h : ∀ p ∈ m, (p.1 == k) = false) :
    odInsert m k v = m ++ [(k, v)] := by
  have hany : m.any (fun p => p.1 == k) = false := by
    rw [List.any_eq_false]
    intro p hp
    simp [h p hp]
  simp [odInsert, hany]

theorem odOfPairs_aux [BEq κ] [LawfulBEq κ] (l acc : List (κ × α))
    (hcross : ∀ x ∈ l, ∀ p ∈ acc, (p.1 == x.1) = false)
    (hl : (l.map Prod.fst).Nodup) :
    l.foldl (fun acc p => odInsert acc p.1 p.2) acc = acc ++ l := by
  induction l generalizing acc with
  | nil => simp
  | cons x xs ih =>
    rw [List.foldl_cons,
      odInsert_append_fresh acc x.1 x.2 (fun p hp => hcross x (by simp) p hp)]
    rw [List.map_cons, List.nodup_cons] at hl
    rw [ih (acc ++ [x]) ?hc hl.2]
    · simp
    case hc =>
      intro y hy p hp
      rcases List.mem_append.mp hp with hpa | hpx
      · exact hcross y (by simp [hy]) p hpa
      · have hx : p = x := by simpa using hpx
        subst hx
        rw [beq_eq_false_iff_ne]
        intro hcon
        exact hl.1 (hcon ▸ List.mem_map_of_mem Prod.fst hy)

/-- Building an ordered dict from pairs with pairwise distinct keys returns
the pairs unchanged: `OrderedDict(pairs)` is the identity there. -/
theorem odOfPairs_nodup [BEq κ] [LawfulBEq κ] (l : List (κ × α))
    (h : (l.map Prod.fst).Nodup) : odOfPairs l = l := by
  have := odOfPairs_aux l [] (by simp) h
  simpa [odOfPairs] using this

/-- `attempt_cast` never returns a dict, so `valueToJson` of a cell value is
never a JSON object. -/
theorem valueToJson_not_isObj (v : Value) : (valueToJson v).isObj = false := by
  cases v <;> rfl

theorem loadsJsonList_map_id (xs : List JValue) (h : ∀ x ∈ xs, loadsJson x = x) :
    loadsJsonList xs = xs := by
  induction xs with
  | nil => rfl
  | cons x t ih =>
    rw [loadsJsonList, h x (by simp), ih (fun y hy => h y (by simp [hy]))]

theorem loadsJsonPairs_map_id (l : List (String × JValue))
    (h : ∀ p ∈ l, loadsJson p.2 = p.2) : loadsJsonPairs l = l := by
  induction l with
  | nil => rfl
  | cons p t ih =>
    cases p with
    | mk k v =>
      rw [loadsJsonPairs, h ⟨k, v⟩ (by simp), ih (fun q hq => h q (by simp [hq]))]

theorem loadsJson_valueToJson (v : Value) : loadsJson (valueToJson v) = valueToJson v := by
  cases v with
  | vlist xs =>
    show JValue.jarr (loadsJsonList (xs.map JValue.jstr)) = JValue.jarr (xs.map JValue.jstr)
    rw [loadsJsonList_map_id]
    intro x hx
    obtain ⟨s, hs, rfl⟩ := List.mem_map.mp hx
    rfl
  | vstr s => rfl
  | vint n => rfl
  | vfloat q => rfl
  | vbool b => rfl
  | vnull => rfl

/-- Where `parse_anything` can have put a section of each class: a name
suffixed "settings" holds a Settings section, a name suffixed "data" (and
not "settings") holds a Data section. -/
def sectionTypedOK (name : String) (sec : SheetSection) : Bool :=
  if settingsSuffixed name then sec.isSettings
  else if dataSuffixed name then sec.isData
  else true

/-- A record without a rest-key entry and without duplicate serialized keys:
every key is a string and the serialized keys are pairwise distinct. -/
def recKeysOK (r : Rec) : Prop :=
  (∀ p ∈ r, p.1 ≠ none) ∧ (r.map (fun p => recKeyToJson p.1)).Nodup

instance recKeysOKDec (r : Rec) : Decidable (recKeysOK r) := by
  unfold recKeysOK
  infer_instance

def sectionKeysOK : SheetSection → Prop
  | .settings kvs => (kvs.map Prod.fst).Nodup
  | .data rows => ∀ r ∈ rows, recKeysOK r
  | .array _ => True

instance sectionKeysOKDec : (sec : SheetSection) → Decidable (sectionKeysOK sec)
  | .settings kvs => inferInstanceAs (Decidable ((kvs.map Prod.fst).Nodup))
  | .data rows => inferInstanceAs (Decidable (∀ r ∈ rows, recKeysOK r))
  | .array _ => inferInstanceAs (Decidable True)

/-- The sheets the round trip preserves: distinct section names (they are
dict keys in Python), sections typed as `parse_anything` types them, and no
record carrying a rest-key entry or duplicate keys. -/
def sheetWF (s : SectionedSheet) : Prop :=
  (s.map Prod.fst).Nodup ∧
    ∀ p ∈ s, sectionTypedOK p.1 p.2 = true ∧ sectionKeysOK p.2

instance sheetWFDec (s : SectionedSheet) : Decidable (sheetWF s) := by
  unfold sheetWF
  infer_instance

theorem loadsJson_recToJson (r : Rec)
    (h : (r.map (fun p => recKeyToJson p.1)).Nodup) :
    loadsJson (recToJson r) = recToJson r := by
  have hv : ∀ p ∈ r.map (fun q => (recKeyToJson q.1, valueToJson q.2)),
      loadsJson p.2 = p.2 := by
    intro p hp
    obtain ⟨q, hq, rfl⟩ := List.mem_map.mp hp
    exact loadsJson_valueToJson q.2
  have hk : ((r.map (fun q => (recKeyToJson q.1, valueToJson q.2))).map Prod.fst).Nodup := by
    simpa [List.map_map, Function.comp] using h
  show JValue.jobj
      (odOfPairs (loadsJsonPairs (r.map (fun q => (recKeyToJson q.1, valueToJson q.2))))) =
    JValue.jobj (r.map (fun q => (recKeyToJson q.1, valueToJson q.2)))
  rw [loadsJsonPairs_map_id _ hv, odOfPairs_nodup _ hk]

theorem loadsJson_sectionToJson (sec : SheetSection) (h : sectionKeysOK sec) :
    loadsJson (sectionToJson sec) = sectionToJson sec := by
  cases sec with
  | settings kvs =>
    have hv : ∀ p ∈ kvs.map (fun q => (q.1, valueToJson q.2)),
        loadsJson p.2 = p.2 := by
      intro p hp
      obtain ⟨q, hq, rfl⟩ := List.mem_map.mp hp
      exact loadsJson_valueToJson q.2
    have hk : ((kvs.map (fun q => (q.1, valueToJson q.2))).map Prod.fst).Nodup := by
      simpa [List.map_map, Function.comp] using h
    show JValue.jobj (odOfPairs (loadsJsonPairs (kvs.map (fun q => (q.1, valueToJson q.2))))) =
      JValue.jobj (kvs.map (fun q => (q.1, valueToJson q.2)))
    rw [loadsJsonPairs_map_id _ hv, odOfPairs_nodup _ hk]
  | data rows =>
    show JValue.jarr (loadsJsonList (rows.map recToJson)) =
      JValue.jarr (rows.map recToJson)
    rw [loadsJsonList_map_id]
    intro x hx
    obtain ⟨r, hr, rfl⟩ := List.mem_map.mp hx
    exact loadsJson_recToJson r (h r hr).2
  | array xs =>
    show JValue.jarr (loadsJsonList (xs.map valueToJson)) =
      JValue.jarr (xs.map valueToJson)
    rw [loadsJsonList_map_id]
    intro x hx
    obtain ⟨v, hv, rfl⟩ := List.mem_map.mp hx
    exact loadsJson_valueToJson v

theorem loadsJson_to_json (S : SectionedSheet) (h : sheetWF S) :
    loadsJson (to_json S) = to_json S := by
  have hv : ∀ p ∈ S.map (fun q => (q.1, sectionToJson q.2)),
      loadsJson p.2 = p.2 := by
    intro p hp
    obtain ⟨q, hq, rfl⟩ := List.mem_map.mp hp
    exact loadsJson_sectionToJson q.2 (h.2 q hq).2
  have hk : ((S.map (fun q => (q.1, sectionToJson q.2))).map Prod.fst).Nodup := by
    simpa [List.map_map, Function.comp] using h.1
  show JValue.jobj (odOfPairs (loadsJsonPairs (S.map (fun q => (q.1, sectionToJson q.2))))) =
    JValue.jobj (S.map (fun q => (q.1, sectionToJson q.2)))
  rw [loadsJsonPairs_map_id _ hv, odOfPairs_nodup _ hk]

theorem valMatch_toJson (v : Value) : valMatch v (valueToJson v) = true := by
  cases v with
  | vlist xs =>
    show strListMatch xs (xs.map JValue.jstr) = true
    induction xs with
    | nil => rfl
    | cons s t ih => simpa [strListMatch] using ih
  | vstr s => simp [valueToJson, valMatch]
  | vint n => simp [valueToJson, valMatch]
  | vfloat q => simp [valueToJson, valMatch]
  | vbool b => simp [valueToJson, valMatch]
  | vnull => rfl

theorem settingsPairsMatch_toJson (kvs : List (String × Value)) :
    settingsPairsMatch kvs (kvs.map (fun p => (p.1, valueToJson p.2))) = true := by
  induction kvs with
  | nil => rfl
  | cons p t ih =>
    cases p with
    | mk k v => simp [settingsPairsMatch, valMatch_toJson, ih]

theorem recMatch_toJson (r : Rec) (h : ∀ p ∈ r, p.1 ≠ none) :
    recMatch r (recToJson r) = true := by
  show recPairsMatch r (r.map (fun p => (recKeyToJson p.1, valueToJson p.2))) = true
  induction r with
  | nil => rfl
  | cons p t ih =>
    cases p with
    | mk k v =>
      have hk : recKeyMatch k (recKeyToJson k) = true := by
        cases k with
        | some s => simp [recKeyMatch, recKeyToJson]
        | none => exact absurd rfl (h ⟨none, v⟩ (by simp))
      simp only [List.map_cons, recPairsMatch, hk, valMatch_toJson, Bool.true_and]
      exact ih (fun q hq => h q (by simp [hq]))

theorem elemsMatch_toJson (xs : List Value) :
    elemsMatch xs (xs.map valueToJson) = true := by
  induction xs with
  | nil => rfl
  | cons v t ih => simp [elemsMatch, valMatch_toJson, ih]

theorem rowsMatch_toJson (rows : List Rec) (h : ∀ r ∈ rows, recKeysOK r) :
    rowsMatch rows (rows.map recToJson) = true := by
  induction rows with
  | nil => rfl
  | cons r t ih =>
    simp only [List.map_cons, rowsMatch, recMatch_toJson r (h r (by simp)).1,
      Bool.true_and]
    exact ih (fun q hq => h q (by simp [hq]))

theorem allNotObj_map (kvs : List (String × Value)) :
    (kvs.map (fun p => (p.1, valueToJson p.2))).all (fun p => ¬ p.2.isObj) = true := by
  induction kvs with
  | nil => rfl
  | cons p t ih =>
    simp only [List.map_cons, List.all_cons, ih, Bool.and_true]
    simp [valueToJson_not_isObj]

/-- One section survives the dispatch of `parse_sectionedsheet_from_json`
with matching content. -/
theorem sectionFromJson_roundtrip (name : String) (sec : SheetSection)
    (hT : sectionTypedOK name sec = true) (hK : sectionKeysOK sec) :
    ∃ psec, sectionFromJson (name, sectionToJson sec) = .ok (name, psec) ∧
      sectionMatch sec psec = true := by
  cases sec with
  | settings kvs =>
    have hall := allNotObj_map kvs
    have hobj : settingsOfObject (sectionToJson (.settings kvs)) =
        .ok (.settings (kvs.map (fun p => (p.1, valueToJson p.2)))) := by
      show (if (kvs.map (fun p => (p.1, valueToJson p.2))).all (fun p => ¬ p.2.isObj) then
            (Except.ok (PSection.settings (kvs.map (fun p => (p.1, valueToJson p.2)))) :
              Except String PSection)
          else
            .error "Settings: init argument does contain dicts (only simple values allowed)") =
        .ok (.settings (kvs.map (fun p => (p.1, valueToJson p.2))))
      rw [hall]
      rfl
    refine ⟨.settings (kvs.map (fun p => (p.1, valueToJson p.2))), ?_, ?_⟩
    · by_cases hs : settingsSuffixed name = true
      · simp [sectionFromJson, hs, hobj, Except.map]
      · by_cases hd : dataSuffixed name = true
        · simp [sectionTypedOK, hs, hd, SheetSection.isData] at hT
        · simp [sectionFromJson, hs, hd, guess_section_from_object, hobj, Except.map]
    · exact settingsPairsMatch_toJson kvs
  | data rows =>
    have hobj : dataOfObject (sectionToJson (.data rows)) =
        .ok (.data (rows.map recToJson)) := rfl
    have hsf : settingsOfObject (sectionToJson (.data rows)) =
        .error "Settings: init argument is not a dict" := rfl
    refine ⟨.data (rows.map recToJson), ?_, ?_⟩
    · by_cases hs : settingsSuffixed name = true
      · simp [sectionTypedOK, hs, SheetSection.isSettings] at hT
      · by_cases hd : dataSuffixed name = true
        · simp [sectionFromJson, hs, hd, hobj, Except.map]
        · simp [sectionFromJson, hs, hd, guess_section_from_object, hobj, hsf,
            Except.map]
    · exact rowsMatch_toJson rows hK
  | array xs =>
    have hobj : dataOfObject (sectionToJson (.array xs)) =
        .ok (.data (xs.map valueToJson)) := rfl
    have hsf : settingsOfObject (sectionToJson (.array xs)) =
        .error "Settings: init argument is not a dict" := rfl
    have hs : settingsSuffixed name = false := by
      cases hcon : settingsSuffixed name with
      | false => rfl
      | true => simp [sectionTypedOK, hcon, SheetSection.isSettings] at hT
    have hd : dataSuffixed name = false := by
      cases hcon : dataSuffixed name with
      | false => rfl
      | true => simp [sectionTypedOK, hs, hcon, SheetSection.isData] at hT
    refine ⟨.data (xs.map valueToJson), ?_, ?_⟩
    · simp [sectionFromJson, hs, hd, guess_section_from_object, hobj, hsf,
        Except.map]
    · exact elemsMatch_toJson xs

theorem sections_roundtrip (S : SectionedSheet)
    (h : ∀ p ∈ S, sectionTypedOK p.1 p.2 = true ∧ sectionKeysOK p.2) :
    ∃ P, mapMEx sectionFromJson (S.map (fun p => (p.1, sectionToJson p.2))) = .ok P ∧
      structEq S P = true := by
  induction S with
  | nil => exact ⟨[], rfl, rfl⟩
  | cons p t ih =>
    obtain ⟨psec, hps, hm⟩ :=
      sectionFromJson_roundtrip p.1 p.2 (h p (by simp)).1 (h p (by simp)).2
    obtain ⟨P, hP, hSE⟩ := ih (fun q hq => h q (by simp [hq]))
    refine ⟨(p.1, psec) :: P, ?_, ?_⟩
    · simp only [List.map_cons, mapMEx, hps, ebind_ok, hP, epure_eq]
    · cases p with
      | mk name sec => simp [structEq, hm, hSE]

/-- C1, counterexample: a csv data row longer than its header gives the
parsed record a rest-key entry under the `None` key, which `json.dumps`
turns into the string key "null", so the JSON round trip of this
parser-produced sheet is not structurally equal to it. -/
theorem json_roundtrip_restkey_cex :
    parse_sectionedsheet "[Foo_Data]\na,b\n1,2\n3,4,5\n" =
      .ok [("Foo_Data", .data
        [[(some "a", .vint 1), (some "b", .vint 2)],
         [(some "a", .vint 3), (some "b", .vint 4), (none, .vlist ["5"])]])] ∧
    parse_sectionedsheet_from_json (to_json
      [("Foo_Data", .data
        [[(some "a", .vint 1), (some "b", .vint 2)],
         [(some "a", .vint 3), (some "b", .vint 4), (none, .vlist ["5"])]])]) =
      .ok [("Foo_Data", .data
        [.jobj [("a", .jint 1), ("b", .jint 2)],
         .jobj [("a", .jint 3), ("b", .jint 4), ("null", .jarr [.jstr "5"])]])] ∧
    structEq
      [("Foo_Data", .data
        [[(some "a", .vint 1), (some "b", .vint 2)],
         [(some "a", .vint 3), (some "b", .vint 4), (none, .vlist ["5"])]])]
      [("Foo_Data", .data
        [.jobj [("a", .jint 1), ("b", .jint 2)],
         .jobj [("a", .jint 3), ("b", .jint 4), ("null", .jarr [.jstr "5"])]])] =
      false :=
  ⟨by decide, rfl, by decide⟩

/-- C1 as amended: for every parser-producible sheet S with distinct section
names, sections placed as `parse_anything` places them and no data record
carrying a rest-key entry or duplicate keys (no csv data row longer than its
header), `parse_sectionedsheet_from_json` of `to_json S` succeeds with a
sheet structurally equal to S: the same section names in the same order,
and within each section the same keys, records and elements with the same
values, numeric values staying numeric and strings staying strings. -/
theorem json_roundtrip (S : SectionedSheet) (h : sheetWF S) :
    ∃ P, parse_sectionedsheet_from_json (to_json S) = .ok P ∧
      structEq S P = true := by
  obtain ⟨P, hP, hm⟩ := sections_roundtrip S (fun p hp => h.2 p hp)
  refine ⟨P, ?_, hm⟩
  show (match loadsJson (to_json S) with
    | .jobj kvs => mapMEx sectionFromJson kvs
    | _ => .error "AttributeError") = .ok P
  rw [loadsJson_to_json S h]
  exact hP

theorem json_roundtrip_witness :
    ∃ P,
      parse_sectionedsheet_from_json (to_json
        [("Header", .settings [("FileFormatVersion", .vint 2)]),
         ("Reads", .settings [("Read1Cycles", .vint 28), ("Read2Cycles", .vint 90)]),
         ("BCLConvert_Data",
          .data [[(some "Sample_ID", .vstr "s1"), (some "Index", .vstr "ACAA")],
                 [(some "Sample_ID", .vstr "s2"), (some "Index", .vstr "ACTT")]])]) =
        .ok P ∧
      structEq
        [("Header", .settings [("FileFormatVersion", .vint 2)]),
         ("Reads", .settings [("Read1Cycles", .vint 28), ("Read2Cycles", .vint 90)]),
         ("BCLConvert_Data",
          .data [[(some "Sample_ID", .vstr "s1"), (some "Index", .vstr "ACAA")],
                 [(some "Sample_ID", .vstr "s2"), (some "Index", .vstr "ACTT")]])]
        P = true :=
  json_roundtrip
    [("Header", .settings [("FileFormatVersion", .vint 2)]),
     ("Reads", .settings [("Read1Cycles", .vint 28), ("Read2Cycles", .vint 90)]),
     ("BCLConvert_Data",
      .data [[(some "Sample_ID", .vstr "s1"), (some "Index", .vstr "ACAA")],
             [(some "Sample_ID", .vstr "s2"), (some "Index", .vstr "ACTT")]])]
    (by decide)

end Samshee
